import Mathlib

/-!
Verification development for the xenia XMA audio-system excerpt.

Shallow embedding of:
  * `src/xenia/apu/xma_context.h` — the 64-byte guest `XMA_CONTEXT_DATA`
    record (sixteen big-endian 32-bit words, bitfields interpreted after a
    whole-record byte swap);
  * `src/xenia/apu/audio_system.cc` — the register interface
    (`ReadRegister`/`WriteRegister`), the context pool
    (`AllocateXmaContext`/`ReleaseXmaContext`), the decoder thread's inner
    decode loop (`DecoderThreadMain`), the client worker
    (`WorkerThreadMain`/`RegisterClient`/`SubmitFrame`);
  * `src/xenia/kernel/xboxkrnl_io.cc` — the `NtWriteFile` shim.

Machine integers are modelled as `Nat` with explicit `% 2^w` where overflow
or bitfield truncation matters.  `size_t` subtraction (which wraps) is
modelled by `sub64`.  Fallible or undefined-behavior paths return `Option`.
-/

set_option maxRecDepth 4096

namespace XeniaApu

/-- `xe::byte_swap` on a 32-bit word: reverses the four bytes. -/
def byteSwap32 (v : Nat) : Nat :=
  v % 256 * 16777216 + v / 256 % 256 * 65536 + v / 65536 % 256 * 256 +
    v / 16777216 % 256

/-- The sixteen 32-bit words of one guest context record, in guest order.
`xe::copy_and_swap` over the whole 64-byte record is a per-word byte swap. -/
def swapWords (w : List Nat) : List Nat := w.map byteSwap32

/-- The host-side view of `XMA_CONTEXT_DATA` (xma_context.h lines 46-123):
every bitfield of the sixteen words, as plain naturals.  Bit layout (LSB
first within each word) follows the declaration order of the bitfields. -/
structure XMA_CONTEXT_DATA where
  input_buffer_0_packet_count : Nat  -- dword 0, bits 0-11
  loop_count : Nat                   -- dword 0, bits 12-19
  input_buffer_0_valid : Nat         -- dword 0, bit 20
  input_buffer_1_valid : Nat         -- dword 0, bit 21
  output_buffer_block_count : Nat    -- dword 0, bits 22-26
  output_buffer_write_offset : Nat   -- dword 0, bits 27-31
  input_buffer_1_packet_count : Nat  -- dword 1, bits 0-11
  loop_subframe_end : Nat            -- dword 1, bits 12-13
  unk_dword_1_a : Nat                -- dword 1, bits 14-16
  loop_subframe_skip : Nat           -- dword 1, bits 17-19
  subframe_decode_count : Nat        -- dword 1, bits 20-23
  unk_dword_1_b : Nat                -- dword 1, bits 24-26
  sample_rate : Nat                  -- dword 1, bits 27-28
  is_stereo : Nat                    -- dword 1, bit 29
  unk_dword_1_c : Nat                -- dword 1, bit 30
  output_buffer_valid : Nat          -- dword 1, bit 31
  input_buffer_read_offset : Nat     -- dword 2, bits 0-25
  unk_dword_2 : Nat                  -- dword 2, bits 26-31
  loop_start : Nat                   -- dword 3, bits 0-25
  unk_dword_3 : Nat                  -- dword 3, bits 26-31
  loop_end : Nat                     -- dword 4, bits 0-25
  packet_metadata : Nat              -- dword 4, bits 26-30
  current_buffer : Nat               -- dword 4, bit 31
  input_buffer_0_ptr : Nat           -- dword 5
  input_buffer_1_ptr : Nat           -- dword 6
  output_buffer_ptr : Nat            -- dword 7
  overlap_add_ptr : Nat              -- dword 8
  output_buffer_read_offset : Nat    -- dword 9, bits 0-4
  unk_dword_9 : Nat                  -- dword 9, bits 5-31
  unk_dwords_10_15 : List Nat        -- dwords 10-15
deriving DecidableEq, Repr

namespace XMA_CONTEXT_DATA

/-- Bytes per compressed packet (`kBytesPerPacket`). -/
def kBytesPerPacket : Nat := 2048

/-- Bytes per output block (`kOutputBytesPerBlock`). -/
def kOutputBytesPerBlock : Nat := 256

/-- Unpack the host-order words into the bitfields. -/
def ofWords (w : List Nat) : XMA_CONTEXT_DATA :=
  let w0 := w.getD 0 0
  let w1 := w.getD 1 0
  let w2 := w.getD 2 0
  let w3 := w.getD 3 0
  let w4 := w.getD 4 0
  let w9 := w.getD 9 0
  { input_buffer_0_packet_count := w0 % 2 ^ 12
    loop_count := w0 / 2 ^ 12 % 2 ^ 8
    input_buffer_0_valid := w0 / 2 ^ 20 % 2
    input_buffer_1_valid := w0 / 2 ^ 21 % 2
    output_buffer_block_count := w0 / 2 ^ 22 % 2 ^ 5
    output_buffer_write_offset := w0 / 2 ^ 27 % 2 ^ 5
    input_buffer_1_packet_count := w1 % 2 ^ 12
    loop_subframe_end := w1 / 2 ^ 12 % 2 ^ 2
    unk_dword_1_a := w1 / 2 ^ 14 % 2 ^ 3
    loop_subframe_skip := w1 / 2 ^ 17 % 2 ^ 3
    subframe_decode_count := w1 / 2 ^ 20 % 2 ^ 4
    unk_dword_1_b := w1 / 2 ^ 24 % 2 ^ 3
    sample_rate := w1 / 2 ^ 27 % 2 ^ 2
    is_stereo := w1 / 2 ^ 29 % 2
    unk_dword_1_c := w1 / 2 ^ 30 % 2
    output_buffer_valid := w1 / 2 ^ 31 % 2
    input_buffer_read_offset := w2 % 2 ^ 26
    unk_dword_2 := w2 / 2 ^ 26 % 2 ^ 6
    loop_start := w3 % 2 ^ 26
    unk_dword_3 := w3 / 2 ^ 26 % 2 ^ 6
    loop_end := w4 % 2 ^ 26
    packet_metadata := w4 / 2 ^ 26 % 2 ^ 5
    current_buffer := w4 / 2 ^ 31 % 2
    input_buffer_0_ptr := w.getD 5 0 % 2 ^ 32
    input_buffer_1_ptr := w.getD 6 0 % 2 ^ 32
    output_buffer_ptr := w.getD 7 0 % 2 ^ 32
    overlap_add_ptr := w.getD 8 0 % 2 ^ 32
    output_buffer_read_offset := w9 % 2 ^ 5
    unk_dword_9 := w9 / 2 ^ 5 % 2 ^ 27
    unk_dwords_10_15 :=
      [w.getD 10 0 % 2 ^ 32, w.getD 11 0 % 2 ^ 32, w.getD 12 0 % 2 ^ 32,
       w.getD 13 0 % 2 ^ 32, w.getD 14 0 % 2 ^ 32, w.getD 15 0 % 2 ^ 32] }

/-- Pack the bitfields back into sixteen host-order words. -/
def toWords (d : XMA_CONTEXT_DATA) : List Nat :=
  [d.input_buffer_0_packet_count % 2 ^ 12 + d.loop_count % 2 ^ 8 * 2 ^ 12 +
     d.input_buffer_0_valid % 2 * 2 ^ 20 + d.input_buffer_1_valid % 2 * 2 ^ 21 +
     d.output_buffer_block_count % 2 ^ 5 * 2 ^ 22 +
     d.output_buffer_write_offset % 2 ^ 5 * 2 ^ 27,
   d.input_buffer_1_packet_count % 2 ^ 12 + d.loop_subframe_end % 2 ^ 2 * 2 ^ 12 +
     d.unk_dword_1_a % 2 ^ 3 * 2 ^ 14 + d.loop_subframe_skip % 2 ^ 3 * 2 ^ 17 +
     d.subframe_decode_count % 2 ^ 4 * 2 ^ 20 + d.unk_dword_1_b % 2 ^ 3 * 2 ^ 24 +
     d.sample_rate % 2 ^ 2 * 2 ^ 27 + d.is_stereo % 2 * 2 ^ 29 +
     d.unk_dword_1_c % 2 * 2 ^ 30 + d.output_buffer_valid % 2 * 2 ^ 31,
   d.input_buffer_read_offset % 2 ^ 26 + d.unk_dword_2 % 2 ^ 6 * 2 ^ 26,
   d.loop_start % 2 ^ 26 + d.unk_dword_3 % 2 ^ 6 * 2 ^ 26,
   d.loop_end % 2 ^ 26 + d.packet_metadata % 2 ^ 5 * 2 ^ 26 +
     d.current_buffer % 2 * 2 ^ 31,
   d.input_buffer_0_ptr % 2 ^ 32,
   d.input_buffer_1_ptr % 2 ^ 32,
   d.output_buffer_ptr % 2 ^ 32,
   d.overlap_add_ptr % 2 ^ 32,
   d.output_buffer_read_offset % 2 ^ 5 + d.unk_dword_9 % 2 ^ 27 * 2 ^ 5,
   d.unk_dwords_10_15.getD 0 0 % 2 ^ 32, d.unk_dwords_10_15.getD 1 0 % 2 ^ 32,
   d.unk_dwords_10_15.getD 2 0 % 2 ^ 32, d.unk_dwords_10_15.getD 3 0 % 2 ^ 32,
   d.unk_dwords_10_15.getD 4 0 % 2 ^ 32, d.unk_dwords_10_15.getD 5 0 % 2 ^ 32]

end XMA_CONTEXT_DATA

/-- The `XMA_CONTEXT_DATA(ptr)` constructor: byte-swap the sixteen guest
words and interpret the bitfields. -/
def loadRecord (w : List Nat) : XMA_CONTEXT_DATA :=
  XMA_CONTEXT_DATA.ofWords (swapWords w)

/-- `XMA_CONTEXT_DATA::Store(ptr)`: pack the bitfields and byte-swap the
sixteen words back to guest order. -/
def storeRecord (d : XMA_CONTEXT_DATA) : List Nat :=
  swapWords (XMA_CONTEXT_DATA.toWords d)

/-- All bitfields of a record are inside their declared widths, and the
reserved tail holds six 32-bit words. -/
def XMA_CONTEXT_DATA.InRange (d : XMA_CONTEXT_DATA) : Prop :=
  d.input_buffer_0_packet_count < 2 ^ 12 ∧ d.loop_count < 2 ^ 8 ∧
  d.input_buffer_0_valid < 2 ∧ d.input_buffer_1_valid < 2 ∧
  d.output_buffer_block_count < 2 ^ 5 ∧ d.output_buffer_write_offset < 2 ^ 5 ∧
  d.input_buffer_1_packet_count < 2 ^ 12 ∧ d.loop_subframe_end < 2 ^ 2 ∧
  d.unk_dword_1_a < 2 ^ 3 ∧ d.loop_subframe_skip < 2 ^ 3 ∧
  d.subframe_decode_count < 2 ^ 4 ∧ d.unk_dword_1_b < 2 ^ 3 ∧
  d.sample_rate < 2 ^ 2 ∧ d.is_stereo < 2 ∧ d.unk_dword_1_c < 2 ∧
  d.output_buffer_valid < 2 ∧ d.input_buffer_read_offset < 2 ^ 26 ∧
  d.unk_dword_2 < 2 ^ 6 ∧ d.loop_start < 2 ^ 26 ∧ d.unk_dword_3 < 2 ^ 6 ∧
  d.loop_end < 2 ^ 26 ∧ d.packet_metadata < 2 ^ 5 ∧ d.current_buffer < 2 ∧
  d.input_buffer_0_ptr < 2 ^ 32 ∧ d.input_buffer_1_ptr < 2 ^ 32 ∧
  d.output_buffer_ptr < 2 ^ 32 ∧ d.overlap_add_ptr < 2 ^ 32 ∧
  d.output_buffer_read_offset < 2 ^ 5 ∧ d.unk_dword_9 < 2 ^ 27 ∧
  d.unk_dwords_10_15.length = 6 ∧ ∀ x ∈ d.unk_dwords_10_15, x < 2 ^ 32

/-! ### Audio system state and register interface (audio_system.cc) -/

/-- `kXmaContextCount`: total number of XMA contexts. -/
def kXmaContextCount : Nat := 320

/-- Host-side bookkeeping for one slot of `xma_context_array_`
(the decoder sub-state itself is external and modelled separately). -/
@[ext]
structure XMAContextSlot where
  guest_ptr : Nat
  in_use : Bool
deriving DecidableEq, Repr

/-- The parts of `AudioSystem` state touched by the register interface and
the context pool.  `records i` holds the sixteen guest-order wire words of
context `i`'s 64-byte record (context `i` lives at
`xma_context_array_ptr + i * 64`, so guest memory inside the context array
is addressed here by context index).  `fence_signaled` models
`decoder_fence_`. -/
@[ext]
structure AudioSystemState where
  register_file : Nat → Nat
  next_context : Nat
  current_context : Nat
  slots : Nat → XMAContextSlot
  records : Nat → List Nat
  fence_signaled : Bool

/-- The per-context state transition of the kick command (`WriteRegister`,
audio_system.cc lines 488-490): each input buffer's valid flag is assigned
1 exactly when that buffer's pointer is non-zero, and the output write
offset is zeroed. -/
def kickContextData (d : XMA_CONTEXT_DATA) : XMA_CONTEXT_DATA :=
  { d with
    input_buffer_0_valid := if d.input_buffer_0_ptr ≠ 0 then 1 else 0
    input_buffer_1_valid := if d.input_buffer_1_ptr ≠ 0 then 1 else 0
    output_buffer_write_offset := 0 }

/-- The effect of one kick on the wire form of a context record: load,
apply `kickContextData`, store. -/
def kickedWire (m : List Nat) : List Nat :=
  storeRecord (kickContextData (loadRecord m))

/-- Kick one context: load its guest record, apply `kickContextData`, store
it back, and signal the decoder fence. -/
def kickOne (context_id : Nat) (s : AudioSystemState) : AudioSystemState :=
  { s with
    records := fun j =>
      if j = context_id then kickedWire (s.records context_id)
      else s.records j
    fence_signaled := true }

/-- The kick bit loop (`for i = 0; value and i < 32; ++i`), `fuel` counting
the remaining iterations (32 at entry), `i` the current bit index, `v` the
remaining shifted value.  Matches the early exit on `value == 0`. -/
def kickBits (sub : Nat) : Nat → Nat → Nat → AudioSystemState → AudioSystemState
  | 0, _, _, s => s
  | fuel + 1, i, v, s =>
    if v = 0 then s
    else kickBits sub fuel (i + 1) (v / 2)
      (if v % 2 = 1 then kickOne (i + sub * 32) s else s)

/-- `AudioSystem::WriteRegister` (audio_system.cc lines 458-534).  The
incoming 64-bit value is truncated to 32 bits and byte-swapped, stored into
the backing word array, and the kick range `0x1940 .. 0x1940 + 9*4`
dispatches `kickBits`.  The lock (`0x1A40`) and clear (`0x1A80`) command
ranges only log and bind locals, so they are plain write-through here, like
every other register. -/
def writeRegister (s : AudioSystemState) (addr value : Nat) : AudioSystemState :=
  if 0x1940 ≤ addr % 65536 ∧ addr % 65536 ≤ 0x1940 + 9 * 4 then
    kickBits ((addr % 65536 - 0x1940) / 4) 32 0 (byteSwap32 (value % 2 ^ 32))
      { s with register_file := fun i =>
          if i = addr % 65536 / 4 then byteSwap32 (value % 2 ^ 32)
          else s.register_file i }
  else
    { s with register_file := fun i =>
        if i = addr % 65536 / 4 then byteSwap32 (value % 2 ^ 32)
        else s.register_file i }

/-- `AudioSystem::ReadRegister` (audio_system.cc lines 433-456): returns
the byte-swapped backing word, except that reading `0x1818` returns the
rotating context counter (`current_context := next_context;
next_context := (next_context + 1) % kXmaContextCount`) instead of the
stored word. -/
def readRegister (s : AudioSystemState) (addr : Nat) : Nat × AudioSystemState :=
  if addr % 65536 = 0x1818 then
    (byteSwap32 s.next_context,
     { s with
       current_context := s.next_context
       next_context := (s.next_context + 1) % kXmaContextCount })
  else
    (byteSwap32 (s.register_file (addr % 65536 / 4)), s)

/-- One guest register access, for stating sequences of reads and writes. -/
inductive RegOp where
  | read (addr : Nat)
  | write (addr value : Nat)
deriving DecidableEq, Repr

/-- Run a sequence of register accesses, collecting the values returned by
reads of the status register `0x1818`. -/
def runOps : List RegOp → AudioSystemState → List Nat × AudioSystemState
  | [], s => ([], s)
  | RegOp.read a :: rest, s =>
    let p := readRegister s a
    let q := runOps rest p.2
    (if a % 65536 = 0x1818 then p.1 :: q.1 else q.1, q.2)
  | RegOp.write a v :: rest, s => runOps rest (writeRegister s a v)

/-- Number of status-register reads in an access sequence. -/
def statusReadCount : List RegOp → Nat
  | [] => 0
  | RegOp.read a :: rest =>
    (if a % 65536 = 0x1818 then 1 else 0) + statusReadCount rest
  | RegOp.write _ _ :: rest => statusReadCount rest

/-! ### Context pool (AllocateXmaContext / ReleaseXmaContext) -/

/-- The slot initialization performed by `AudioSystem::Setup`
(audio_system.cc lines 89-101): context `i` is bound to guest address
`xma_context_array_ptr + i * kXmaContextSize` and marked free. -/
def setupSlots (base : Nat) : Nat → XMAContextSlot :=
  fun i => { guest_ptr := base + i * 64, in_use := false }

/-- The scan of `AllocateXmaContext` (audio_system.cc lines 343-355), with
`fuel` the number of slots left to inspect (320 at entry) and `n` the
current index: the first slot with `in_use == false` is marked used and its
guest address returned; an exhausted scan returns 0. -/
def allocFrom : Nat → Nat → AudioSystemState → Nat × AudioSystemState
  | 0, _, s => (0, s)
  | fuel + 1, n, s =>
    if (s.slots n).in_use = false then
      ((s.slots n).guest_ptr,
       { s with
         slots := fun j =>
           if j = n then { guest_ptr := (s.slots n).guest_ptr, in_use := true }
           else s.slots j })
    else allocFrom fuel (n + 1) s

/-- `AudioSystem::AllocateXmaContext`. -/
def allocateXmaContext (s : AudioSystemState) : Nat × AudioSystemState :=
  allocFrom kXmaContextCount 0 s

/-- One iteration of the `ReleaseXmaContext` scan (audio_system.cc lines
361-375): on a guest-address match the slot is marked free and its 64-byte
guest record zeroed (the decoder's `DiscardPacket` acts on external decoder
state, modelled in the decode-loop section). -/
def releaseStep (guest_ptr n : Nat) (s : AudioSystemState) : AudioSystemState :=
  if (s.slots n).guest_ptr = guest_ptr then
    { s with
      slots := fun j =>
        if j = n then { guest_ptr := (s.slots n).guest_ptr, in_use := false }
        else s.slots j
      records := fun j => if j = n then List.replicate 16 0 else s.records j }
  else s

/-- The full `ReleaseXmaContext` scan: unlike allocation it does not stop
at the first match. -/
def releaseFrom (guest_ptr : Nat) : Nat → Nat → AudioSystemState → AudioSystemState
  | 0, _, s => s
  | fuel + 1, n, s => releaseFrom guest_ptr fuel (n + 1) (releaseStep guest_ptr n s)

/-- `AudioSystem::ReleaseXmaContext`. -/
def releaseXmaContext (s : AudioSystemState) (guest_ptr : Nat) : AudioSystemState :=
  releaseFrom guest_ptr kXmaContextCount 0 s

/-- The state right after `AudioSystem::Setup`: zeroed register file, slots
bound to `base + i * 64` (a sample base of 4096 here), all records zeroed,
`next_context = 1`, fence unsignaled. -/
def initState : AudioSystemState :=
  { register_file := fun _ => 0
    next_context := 1
    current_context := 0
    slots := setupSlots 4096
    records := fun _ => List.replicate 16 0
    fence_signaled := false }

/-! ### Decoder thread inner decode loop (DecoderThreadMain) -/

/-- Wrapping `size_t` subtraction: `(x - y) mod 2^64` for `x < 2^64`. -/
def sub64 (x y : Nat) : Nat := (x + (2 ^ 64 - y % 2 ^ 64)) % 2 ^ 64

/-- The opaque decoder collaborator (`PreparePacket` / `DecodePacket` /
`DiscardPacket`) as a state machine over a decoder-state type.
`decodePacket st off max` returns the signed result — bytes written into
`[off, off + result)` of the output buffer, or a negative error — and the
next decoder state; `preparePacket st input_offset sample_rate channels`
stages the fixed 2048-byte packet at `input_offset`. -/
structure Decoder (σ : Type) where
  decodePacket : σ → Nat → Nat → Int × σ
  preparePacket : σ → Nat → Nat → Nat → σ
  discardPacket : σ → σ

/-- The end-of-iteration write-back (audio_system.cc lines 316-317): the
byte offsets re-encoded into the record's bit-granular read offset (26-bit
field) and block-granular write offset (5-bit field), with C bitfield
truncation. -/
def writeBack (d : XMA_CONTEXT_DATA) (input_offset output_offset : Nat) :
    XMA_CONTEXT_DATA :=
  { d with
    input_buffer_read_offset := (input_offset + 4) * 8 % 2 ^ 26
    output_buffer_write_offset := output_offset / 256 % 2 ^ 5 }

/-- One iteration of the inner decode loop (audio_system.cc lines 247-318)
on the loaded record and decoder state.  `Sum.inl` is a loop break (input
exhausted, output full, or a decode error with the in-flight packet
discarded); `Sum.inr` continues.  All `size_t` arithmetic wraps mod 2^64
as in the source. -/
def decodeStep {σ : Type} (D : Decoder σ) (st : XMA_CONTEXT_DATA × σ) :
    (XMA_CONTEXT_DATA × σ) ⊕ (XMA_CONTEXT_DATA × σ) :=
  if sub64 ((st.1.input_buffer_0_packet_count +
      st.1.input_buffer_1_packet_count) * 2048)
      (sub64 (st.1.input_buffer_read_offset / 8) 4) = 0 then
    Sum.inl st
  else if sub64 (st.1.output_buffer_block_count * 256)
      (st.1.output_buffer_write_offset * 256) = 0 then
    Sum.inl st
  else if (D.decodePacket st.2 (st.1.output_buffer_write_offset * 256)
      (sub64 (st.1.output_buffer_block_count * 256)
        (st.1.output_buffer_write_offset * 256))).1 < 0 then
    Sum.inl (st.1, D.discardPacket
      (D.decodePacket st.2 (st.1.output_buffer_write_offset * 256)
        (sub64 (st.1.output_buffer_block_count * 256)
          (st.1.output_buffer_write_offset * 256))).2)
  else if (D.decodePacket st.2 (st.1.output_buffer_write_offset * 256)
      (sub64 (st.1.output_buffer_block_count * 256)
        (st.1.output_buffer_write_offset * 256))).1 = 0 then
    Sum.inr (writeBack st.1
      ((sub64 (st.1.input_buffer_read_offset / 8) 4 + 2048) % 2 ^ 64)
      ((st.1.output_buffer_write_offset * 256 +
        (D.decodePacket st.2 (st.1.output_buffer_write_offset * 256)
          (sub64 (st.1.output_buffer_block_count * 256)
            (st.1.output_buffer_write_offset * 256))).1.toNat) % 2 ^ 64),
      D.preparePacket
        (D.decodePacket st.2 (st.1.output_buffer_write_offset * 256)
          (sub64 (st.1.output_buffer_block_count * 256)
            (st.1.output_buffer_write_offset * 256))).2
        (sub64 (st.1.input_buffer_read_offset / 8) 4)
        (if st.1.sample_rate = 0 then 24000
         else if st.1.sample_rate = 1 then 32000
         else if st.1.sample_rate = 2 then 44100
         else if st.1.sample_rate = 3 then 48000
         else 0)
        (if st.1.is_stereo = 1 then 2 else 1))
  else
    Sum.inr (writeBack st.1
      (sub64 (st.1.input_buffer_read_offset / 8) 4)
      ((st.1.output_buffer_write_offset * 256 +
        (D.decodePacket st.2 (st.1.output_buffer_write_offset * 256)
          (sub64 (st.1.output_buffer_block_count * 256)
            (st.1.output_buffer_write_offset * 256))).1.toNat) % 2 ^ 64),
      (D.decodePacket st.2 (st.1.output_buffer_write_offset * 256)
        (sub64 (st.1.output_buffer_block_count * 256)
          (st.1.output_buffer_write_offset * 256))).2)

/-- Generic bounded while-loop driver: `step` either breaks with a final
state (`Sum.inl`) or continues (`Sum.inr`). -/
def loopRun {α : Type} (step : α → α ⊕ α) : Nat → α → Option α
  | 0, _ => none
  | fuel + 1, a =>
    match step a with
    | Sum.inl stop => some stop
    | Sum.inr a' => loopRun step fuel a'

/-- Generic iteration walker: the state after exactly `n` continuing steps
(`none` if the loop broke earlier). -/
def iterW {α : Type} (step : α → α ⊕ α) : Nat → α → Option α
  | 0, a => some a
  | n + 1, a =>
    match step a with
    | Sum.inl _ => none
    | Sum.inr a' => iterW step n a'

/-- Run the inner loop with at most `fuel` iterations; `none` means the
iteration budget was exhausted before the loop broke. -/
def runLoop {σ : Type} (D : Decoder σ) :
    Nat → XMA_CONTEXT_DATA × σ → Option (XMA_CONTEXT_DATA × σ) :=
  loopRun (decodeStep D)

/-- The loop state after exactly `n` continuing iterations (`none` if the
loop broke earlier). -/
def iterN {σ : Type} (D : Decoder σ) :
    Nat → XMA_CONTEXT_DATA × σ → Option (XMA_CONTEXT_DATA × σ) :=
  iterW (decodeStep D)

/-- A fixed-positive-ratio decoder: each prepared 2048-byte packet buffers
`R` output bytes, and each `DecodePacket` call emits as much of the buffer
as fits in the remaining output space, never erring.  The decoder state is
the count of buffered output bytes. -/
def fixedRatioDecoder (R : Nat) : Decoder Nat where
  decodePacket := fun B _off max => (Int.ofNat (min B max), B - min B max)
  preparePacket := fun _B _off _rate _ch => R
  discardPacket := fun _B => 0

/-- Clearing the three validity flags in the local record copy
(audio_system.cc lines 215-217), done right after a valid kick is seen. -/
def clearValid (d : XMA_CONTEXT_DATA) : XMA_CONTEXT_DATA :=
  { d with
    input_buffer_0_valid := 0
    input_buffer_1_valid := 0
    output_buffer_valid := 0 }

/-- Steps 3-7 of a decoder-thread pass over one context (audio_system.cc
lines 208-321): load the record; if an input buffer is valid, clear the
three valid flags, run the inner loop, store the record back; otherwise
leave guest memory alone. -/
def processContext {σ : Type} (D : Decoder σ) (fuel : Nat)
    (wire : List Nat) (dec : σ) : List Nat × σ :=
  if (loadRecord wire).input_buffer_0_valid ≠ 0 ∨
      (loadRecord wire).input_buffer_1_valid ≠ 0 then
    match runLoop D fuel (clearValid (loadRecord wire), dec) with
    | some st => (storeRecord st.1, st.2)
    | none => (wire, dec)
  else (wire, dec)

/-- One decoder-thread visit of one pool slot: unused contexts are
skipped; the scan never writes the slot bookkeeping (`in_use`), only the
guest record and the decoder sub-state. -/
def decoderPassContext {σ : Type} (D : Decoder σ) (fuel : Nat)
    (slot : XMAContextSlot) (wire : List Nat) (dec : σ) :
    XMAContextSlot × List Nat × σ :=
  if slot.in_use then (slot, processContext D fuel wire dec)
  else (slot, wire, dec)

/-- Loop invariant for the fixed-ratio decode run: packet counts and block
count are fixed, the read offset encodes a packet-aligned byte offset
`p * 2048` with `p ≤ cnt0`, the write offset stays within the output block
count, and the buffered output stays 256-aligned. -/
def decodeInv (cnt0 bc : Nat) (st : XMA_CONTEXT_DATA × Nat) : Prop :=
  st.1.input_buffer_0_packet_count = cnt0 ∧
  st.1.input_buffer_1_packet_count = 0 ∧
  st.1.output_buffer_block_count = bc ∧
  (∃ p, p ≤ cnt0 ∧ st.1.input_buffer_read_offset = (p * 2048 + 4) * 8) ∧
  st.1.output_buffer_write_offset ≤ bc ∧
  256 ∣ st.2

/-- Termination measure of the inner loop: remaining input packets plus
remaining output blocks. -/
def decodeMeasure (cnt0 bc : Nat) (st : XMA_CONTEXT_DATA × Nat) : Nat :=
  (cnt0 - sub64 (st.1.input_buffer_read_offset / 8) 4 / 2048) +
    (bc - st.1.output_buffer_write_offset)

/-- A concrete record for exercising the decode loop: two input packets
(S = 4096 bytes), a fresh 31-block output buffer (O = 7936 bytes), read
offset at the 32-bit post-header position. -/
def twoPacketRecord : XMA_CONTEXT_DATA :=
  { input_buffer_0_packet_count := 2
    loop_count := 0
    input_buffer_0_valid := 0
    input_buffer_1_valid := 0
    output_buffer_block_count := 31
    output_buffer_write_offset := 0
    input_buffer_1_packet_count := 0
    loop_subframe_end := 0
    unk_dword_1_a := 0
    loop_subframe_skip := 0
    subframe_decode_count := 0
    unk_dword_1_b := 0
    sample_rate := 0
    is_stereo := 0
    unk_dword_1_c := 0
    output_buffer_valid := 0
    input_buffer_read_offset := 32
    unk_dword_2 := 0
    loop_start := 0
    unk_dword_3 := 0
    loop_end := 0
    packet_metadata := 0
    current_buffer := 0
    input_buffer_0_ptr := 0
    input_buffer_1_ptr := 0
    output_buffer_ptr := 0
    overlap_add_ptr := 0
    output_buffer_read_offset := 0
    unk_dword_9 := 0
    unk_dwords_10_15 := [0, 0, 0, 0, 0, 0] }

/-- A record with one pending input packet, a one-block output buffer and
the input-0 valid flag set, for exercising the error path. -/
def errRecord : XMA_CONTEXT_DATA :=
  { twoPacketRecord with
    input_buffer_0_packet_count := 1
    output_buffer_block_count := 1
    input_buffer_0_valid := 1 }

/-- The wire form of `errRecord`. -/
def errWire : List Nat := storeRecord errRecord

/-- A decoder that always reports a decode error. -/
def errDecoder : Decoder Unit where
  decodePacket := fun _u _off _max => (-1, ())
  preparePacket := fun _u _off _rate _ch => ()
  discardPacket := fun _u => ()

/-! ### Client callback worker (WorkerThreadMain / SubmitFrame) -/

/-- One entry of `clients_` as used by audio_system.cc: the guest callback
address, the raw callback argument, and the wrapped-argument pointer that
is actually passed to the callback (the driver handle is external). -/
structure AudioClient where
  callback : Nat
  callback_arg : Nat
  wrapped_callback_arg : Nat
deriving DecidableEq, Repr

/-- The worker-visible state: the client table, the signaled state of the
`client_wait_handles_` events (index `N` is the extra shutdown/wake
handle), and the log of guest callback executions performed by
`processor->Execute` (an external collaborator, recorded as a trace). -/
structure WorkerState where
  clients : Nat → AudioClient
  events : Nat → Bool
  invocations : List (Nat × Nat)

/-- `WaitForMultipleObjectsEx` over handles `0 .. fuel-1` starting at
index `i`, with bWaitAll = FALSE: the lowest signaled index, `none` when
nothing is signaled (the wait blocks). -/
def findSignaled (ev : Nat → Bool) : Nat → Nat → Option Nat
  | _, 0 => none
  | i, fuel + 1 => if ev i then some i else findSignaled ev (i + 1) fuel

/-- Execute one client's guest callback (WorkerThreadMain lines 150-159):
the callback and wrapped argument are read under the lock and the callback
is executed when non-zero.  `cbSubmits i` says whether client `i`'s guest
callback calls `SubmitFrame`, whose `ResetEvent` (line 415) is the only
reset of the handle on this path — the worker loop itself never resets. -/
def invokeClient (cbSubmits : Nat → Bool) (i : Nat) (s : WorkerState) :
    WorkerState :=
  if (s.clients i).callback ≠ 0 then
    { s with
      invocations := s.invocations ++
        [((s.clients i).callback, (s.clients i).wrapped_callback_arg)]
      events := fun j =>
        if cbSubmits i ∧ j = i then false else s.events j }
  else s

/-- The do-while pump (WorkerThreadMain lines 149-164): invoke the client
at `i`, then advance while the next index is below the client count and
its handle polls signaled. -/
def pumpFrom (cbSubmits : Nat → Bool) (N : Nat) :
    Nat → Nat → WorkerState → WorkerState
  | 0, _, s => s
  | fuel + 1, i, s =>
    if i + 1 < N ∧ (invokeClient cbSubmits i s).events (i + 1) = true then
      pumpFrom cbSubmits N fuel (i + 1) (invokeClient cbSubmits i s)
    else invokeClient cbSubmits i s

/-- One iteration of the worker run loop (WorkerThreadMain lines 136-175)
with `N = maximum_client_count_`: wait for the lowest signaled handle
(`none` = the wait blocks); the shutdown/wake handle at index `N` pumps
nothing; a client index pumps from there. -/
def workerIteration (cbSubmits : Nat → Bool) (N : Nat) (s : WorkerState) :
    Option WorkerState :=
  match findSignaled s.events 0 (N + 1) with
  | none => none
  | some r => if r = N then some s else some (pumpFrom cbSubmits N N r s)

/-- A two-client worker state: client 0 has callback 5 with wrapped
argument 9 and its handle signaled once; nothing else is signaled. -/
def workerInit : WorkerState :=
  { clients := fun i =>
      if i = 0 then
        { callback := 5, callback_arg := 7, wrapped_callback_arg := 9 }
      else { callback := 0, callback_arg := 0, wrapped_callback_arg := 0 }
    events := fun i => i == 0
    invocations := [] }

/-! ### Client registration (RegisterClient) and NtWriteFile -/

/-- `X_STATUS_SUCCESS`. -/
def X_STATUS_SUCCESS : Nat := 0

/-- `X_STATUS_INVALID_HANDLE`. -/
def X_STATUS_INVALID_HANDLE : Nat := 0xC0000008

/-- The client-slot bookkeeping used by `RegisterClient`: the free-index
FIFO `unused_clients_` (head = queue front), the client table, and the
wait-handle signaled states. -/
structure ClientTable where
  unused_clients : List Nat
  clients : Nat → AudioClient
  events : Nat → Bool

/-- `AudioSystem::RegisterClient` (audio_system.cc lines 378-406).
`create_result` is the status returned by the external `CreateDriver`;
`wrapped_ptr` is the 4-byte guest allocation holding the swapped callback
argument.  With an empty free queue the code asserts and then calls
`front()` on an empty `std::queue` — undefined behavior, modelled as
`none`; exhaustion produces no status code.  On a driver-creation failure
the index is not popped and the failure status is returned.  Returns
(status, index, table). -/
def registerClient (create_result wrapped_ptr : Nat) (s : ClientTable)
    (callback callback_arg : Nat) : Option (Nat × Nat × ClientTable) :=
  match s.unused_clients with
  | [] => none
  | index :: rest =>
    if 2 ^ 31 ≤ create_result then
      some (create_result, index,
        { s with events := fun j => if j = index then false else s.events j })
    else
      some (X_STATUS_SUCCESS, index,
        { unused_clients := rest
          clients := fun j =>
            if j = index then
              { callback := callback, callback_arg := callback_arg,
                wrapped_callback_arg := wrapped_ptr }
            else s.clients j
          events := fun j => if j = index then false else s.events j })

/-- An empty client table (all slots taken, free queue empty). -/
def emptyClientTable : ClientTable :=
  { unused_clients := []
    clients := fun _ => { callback := 0, callback_arg := 0,
                          wrapped_callback_arg := 0 }
    events := fun _ => false }

/-- A pool state with every context slot in use. -/
def fullPool : AudioSystemState :=
  { initState with
    slots := fun i => { guest_ptr := 4096 + i * 64, in_use := true } }

/-- The outcome of one `NtWriteFile` call. -/
structure NtWriteResult where
  status : Nat
  wrote : Bool
  event_signaled : Bool
deriving DecidableEq, Repr

/-- `NtWriteFile_shim` (xboxkrnl_io.cc lines 321-402), control flow only:
`event_valid` / `file_valid` model the object-table lookups, and
`write_status` the status of the external `file->Write`.  The code sets
`result = X_STATUS_INVALID_HANDLE` when `event_handle` is non-zero and its
lookup fails, and then — after the FILE lookup — tests `if (!ev)` (the
EVENT reference, not the file reference), so `result` ends up
`X_STATUS_INVALID_HANDLE` whenever the event reference is empty, in
particular whenever `event_handle == 0`; only with a valid event does the
synchronous write run (resetting, then signaling, the event).  A write
reached with an empty file reference dereferences null — undefined
behavior, modelled as `none`. -/
def ntWriteFile (event_valid file_valid : Nat → Bool) (write_status : Nat)
    (event_handle file_handle : Nat) : Option NtWriteResult :=
  if (event_handle ≠ 0 && event_valid event_handle) = false then
    some { status := X_STATUS_INVALID_HANDLE, wrote := false,
           event_signaled := false }
  else if file_valid file_handle then
    some { status := write_status, wrote := true, event_signaled := true }
  else none

/-! ### Theorems -/

theorem byteSwap32_lt (v : Nat) : byteSwap32 v < 2 ^ 32 := by
  unfold byteSwap32
  omega

theorem byteSwap32_bytes (b0 b1 b2 b3 : Nat) (h0 : b0 < 256) (h1 : b1 < 256)
    (h2 : b2 < 256) (h3 : b3 < 256) :
    byteSwap32 (b3 * 16777216 + b2 * 65536 + b1 * 256 + b0) =
      b0 * 16777216 + b1 * 65536 + b2 * 256 + b3 := by
  unfold byteSwap32
  have d2 : (b3 * 16777216 + b2 * 65536 + b1 * 256 + b0) / 256 =
      b3 * 65536 + b2 * 256 + b1 := by omega
  have d3 : (b3 * 16777216 + b2 * 65536 + b1 * 256 + b0) / 65536 =
      b3 * 256 + b2 := by omega
  have d4 : (b3 * 16777216 + b2 * 65536 + b1 * 256 + b0) / 16777216 = b3 := by
    omega
  rw [d2, d3, d4]
  omega

theorem byteSwap32_involutive (v : Nat) (h : v < 2 ^ 32) :
    byteSwap32 (byteSwap32 v) = v := by
  obtain ⟨b0, b1, b2, b3, hb0, hb1, hb2, hb3, hv⟩ :
      ∃ b0 b1 b2 b3, b0 < 256 ∧ b1 < 256 ∧ b2 < 256 ∧ b3 < 256 ∧
        v = b3 * 16777216 + b2 * 65536 + b1 * 256 + b0 :=
    ⟨v % 256, v / 256 % 256, v / 65536 % 256, v / 16777216 % 256,
      by omega, by omega, by omega, by omega, by omega⟩
  subst hv
  rw [byteSwap32_bytes b0 b1 b2 b3 hb0 hb1 hb2 hb3,
    byteSwap32_bytes b3 b2 b1 b0 hb3 hb2 hb1 hb0]

theorem swapWords_involutive (w : List Nat) (h : ∀ x ∈ w, x < 2 ^ 32) :
    swapWords (swapWords w) = w := by
  unfold swapWords
  rw [List.map_map]
  induction w with
  | nil => rfl
  | cons a t ih =>
    simp only [List.map_cons, List.cons.injEq]
    constructor
    · exact byteSwap32_involutive a (h a (by simp))
    · exact ih (fun x hx => h x (by simp [hx]))

theorem toWords_ofWords (w : List Nat) (hlen : w.length = 16)
    (h : ∀ x ∈ w, x < 2 ^ 32) :
    XMA_CONTEXT_DATA.toWords (XMA_CONTEXT_DATA.ofWords w) = w := by
  match w, hlen with
  | [a0, a1, a2, a3, a4, a5, a6, a7, a8, a9, a10, a11, a12, a13, a14, a15], _ =>
    simp only [List.mem_cons, List.not_mem_nil, or_false, forall_eq_or_imp,
      forall_eq] at h
    obtain ⟨h0, h1, h2, h3, h4, h5, h6, h7, h8, h9, h10, h11, h12, h13, h14,
      h15⟩ := h
    simp only [XMA_CONTEXT_DATA.ofWords, XMA_CONTEXT_DATA.toWords, List.getD]
    norm_num
    refine ⟨?_, ?_, ?_, ?_, ?_, ?_, ?_, ?_, ?_, ?_, ?_, ?_, ?_, ?_, ?_, ?_⟩ <;>
      omega

theorem ofWords_toWords (d : XMA_CONTEXT_DATA) (h : d.InRange) :
    XMA_CONTEXT_DATA.ofWords (XMA_CONTEXT_DATA.toWords d) = d := by
  obtain ⟨f1, f2, f3, f4, f5, f6, f7, f8, f9, f10, f11, f12, f13, f14, f15,
    f16, f17, f18, f19, f20, f21, f22, f23, f24, f25, f26, f27, f28, f29, u⟩ := d
  obtain ⟨h1, h2, h3, h4, h5, h6, h7, h8, h9, h10, h11, h12, h13, h14, h15,
    h16, h17, h18, h19, h20, h21, h22, h23, h24, h25, h26, h27, h28, h29,
    hlen, hu⟩ := h
  match u, hlen with
  | [u0, u1, u2, u3, u4, u5], _ =>
    have g1 : f1 < 2 ^ 12 := h1
    have g2 : f2 < 2 ^ 8 := h2
    have g3 : f3 < 2 := h3
    have g4 : f4 < 2 := h4
    have g5 : f5 < 2 ^ 5 := h5
    have g6 : f6 < 2 ^ 5 := h6
    have g7 : f7 < 2 ^ 12 := h7
    have g8 : f8 < 2 ^ 2 := h8
    have g9 : f9 < 2 ^ 3 := h9
    have g10 : f10 < 2 ^ 3 := h10
    have g11 : f11 < 2 ^ 4 := h11
    have g12 : f12 < 2 ^ 3 := h12
    have g13 : f13 < 2 ^ 2 := h13
    have g14 : f14 < 2 := h14
    have g15 : f15 < 2 := h15
    have g16 : f16 < 2 := h16
    have g17 : f17 < 2 ^ 26 := h17
    have g18 : f18 < 2 ^ 6 := h18
    have g19 : f19 < 2 ^ 26 := h19
    have g20 : f20 < 2 ^ 6 := h20
    have g21 : f21 < 2 ^ 26 := h21
    have g22 : f22 < 2 ^ 5 := h22
    have g23 : f23 < 2 := h23
    have g24 : f24 < 2 ^ 32 := h24
    have g25 : f25 < 2 ^ 32 := h25
    have g26 : f26 < 2 ^ 32 := h26
    have g27 : f27 < 2 ^ 32 := h27
    have g28 : f28 < 2 ^ 5 := h28
    have g29 : f29 < 2 ^ 27 := h29
    have gu : ∀ x ∈ [u0, u1, u2, u3, u4, u5], x < 2 ^ 32 := hu
    have gu0 : u0 < 2 ^ 32 := gu u0 (by simp)
    have gu1 : u1 < 2 ^ 32 := gu u1 (by simp)
    have gu2 : u2 < 2 ^ 32 := gu u2 (by simp)
    have gu3 : u3 < 2 ^ 32 := gu u3 (by simp)
    have gu4 : u4 < 2 ^ 32 := gu u4 (by simp)
    have gu5 : u5 < 2 ^ 32 := gu u5 (by simp)
    clear h1 h2 h3 h4 h5 h6 h7 h8 h9 h10 h11 h12 h13 h14 h15 h16 h17 h18 h19
      h20 h21 h22 h23 h24 h25 h26 h27 h28 h29 hu
    simp only [XMA_CONTEXT_DATA.ofWords, XMA_CONTEXT_DATA.toWords, List.getD]
    norm_num
    refine ⟨?_, ?_, ?_, ?_, ?_, ?_, ?_, ?_, ?_, ?_, ?_, ?_, ?_, ?_, ?_, ?_,
      ?_, ?_, ?_, ?_, ?_, ?_, ?_, ?_, ?_, ?_, ?_, ?_, ?_, ?_⟩ <;> omega

theorem toWords_length (d : XMA_CONTEXT_DATA) :
    (XMA_CONTEXT_DATA.toWords d).length = 16 := rfl

theorem toWords_lt (d : XMA_CONTEXT_DATA) :
    ∀ x ∈ XMA_CONTEXT_DATA.toWords d, x < 2 ^ 32 := by
  unfold XMA_CONTEXT_DATA.toWords
  intro x hx
  simp only [List.mem_cons, List.not_mem_nil, or_false] at hx
  rcases hx with h | h | h | h | h | h | h | h | h | h | h | h | h | h | h |
    h <;> subst h <;> omega

theorem loadRecord_storeRecord (d : XMA_CONTEXT_DATA) (h : d.InRange) :
    loadRecord (storeRecord d) = d := by
  unfold loadRecord storeRecord
  rw [swapWords_involutive _ (toWords_lt d), ofWords_toWords d h]

theorem storeRecord_loadRecord (w : List Nat) (hlen : w.length = 16)
    (h : ∀ x ∈ w, x < 2 ^ 32) :
    storeRecord (loadRecord w) = w := by
  unfold loadRecord storeRecord
  rw [toWords_ofWords (swapWords w) (by simpa [swapWords] using hlen)
    (by intro x hx; simp only [swapWords, List.mem_map] at hx;
        obtain ⟨a, _, ha⟩ := hx; subst ha; exact byteSwap32_lt a)]
  exact swapWords_involutive w h

/-- Claim C3: loading a legal 64-byte context record from guest memory
(byte-swapping the sixteen 32-bit words) and storing it back (the symmetric
swap) reproduces the original words bit-for-bit; the whole-record byte-swap
transform is an involution; and field interpretation commutes with the
double swap. -/
theorem xma_record_roundtrip (w : List Nat) (hlen : w.length = 16)
    (h : ∀ x ∈ w, x < 2 ^ 32) :
    storeRecord (loadRecord w) = w ∧ swapWords (swapWords w) = w ∧
      XMA_CONTEXT_DATA.ofWords (swapWords (swapWords w)) =
        XMA_CONTEXT_DATA.ofWords w := by
  refine ⟨storeRecord_loadRecord w hlen h, swapWords_involutive w h, ?_⟩
  rw [swapWords_involutive w h]

theorem kickOne_next (cid : Nat) (s : AudioSystemState) :
    (kickOne cid s).next_context = s.next_context := rfl

theorem kickBits_next (sub : Nat) :
    ∀ fuel i v s, (kickBits sub fuel i v s).next_context = s.next_context := by
  intro fuel
  induction fuel with
  | zero => intro i v s; rfl
  | succ n ih =>
    intro i v s
    unfold kickBits
    by_cases hv : v = 0
    · rw [if_pos hv]
    · rw [if_neg hv, ih]
      by_cases hb : v % 2 = 1 <;> simp [hb, kickOne_next]

theorem writeRegister_next (s : AudioSystemState) (a v : Nat) :
    (writeRegister s a v).next_context = s.next_context := by
  unfold writeRegister
  by_cases h : 0x1940 ≤ a % 65536 ∧ a % 65536 ≤ 0x1940 + 9 * 4
  · rw [if_pos h, kickBits_next]
  · rw [if_neg h]

theorem div2_div_pow (v b : Nat) : v / 2 / 2 ^ b = v / 2 ^ (b + 1) := by
  rw [Nat.div_div_eq_div_mul, ← pow_succ']

theorem kickOne_records (cid : Nat) (s : AudioSystemState) (j : Nat) :
    (kickOne cid s).records j =
      if j = cid then kickedWire (s.records cid) else s.records j := rfl

theorem kickBits_records_miss (sub : Nat) :
    ∀ fuel i v s j,
      (∀ b, b < fuel → v / 2 ^ b % 2 = 1 → j ≠ i + b + sub * 32) →
      (kickBits sub fuel i v s).records j = s.records j := by
  intro fuel
  induction fuel with
  | zero => intro i v s j _; rfl
  | succ n ih =>
    intro i v s j h
    unfold kickBits
    by_cases hv : v = 0
    · rw [if_pos hv]
    · rw [if_neg hv]
      have hstep : (if v % 2 = 1 then kickOne (i + sub * 32) s else s).records j =
          s.records j := by
        by_cases hb : v % 2 = 1
        · rw [if_pos hb, kickOne_records]
          have hj : j ≠ i + sub * 32 := by
            have := h 0 (Nat.succ_pos n) (by simpa using hb)
            omega
          rw [if_neg hj]
        · rw [if_neg hb]
      rw [ih (i + 1) (v / 2) _ j ?hrec, hstep]
      case hrec =>
        intro b hb hbit
        have hbit' : v / 2 ^ (b + 1) % 2 = 1 := by
          rw [← div2_div_pow]; exact hbit
        have := h (b + 1) (by omega) hbit'
        omega

theorem kickBits_records_hit (sub : Nat) :
    ∀ fuel i v s b, b < fuel → v / 2 ^ b % 2 = 1 →
      (kickBits sub fuel i v s).records (i + b + sub * 32) =
        kickedWire (s.records (i + b + sub * 32)) := by
  intro fuel
  induction fuel with
  | zero => intro i v s b hb; omega
  | succ n ih =>
    intro i v s b hb hbit
    have hv : v ≠ 0 := by
      intro h0
      rw [h0] at hbit
      simp at hbit
    unfold kickBits
    rw [if_neg hv]
    cases b with
    | zero =>
      have hb0 : v % 2 = 1 := by simpa using hbit
      rw [if_pos hb0]
      rw [kickBits_records_miss sub n (i + 1) (v / 2) _ _ (by intro b' _ _; omega)]
      rw [kickOne_records]
      have hi : i + 0 + sub * 32 = i + sub * 32 := by omega
      rw [hi, if_pos rfl]
    | succ b' =>
      have hne : i + (b' + 1) + sub * 32 ≠ i + sub * 32 := by omega
      have hrec : v / 2 / 2 ^ b' % 2 = 1 := by rw [div2_div_pow]; exact hbit
      have hstep : (if v % 2 = 1 then kickOne (i + sub * 32) s else s).records
          (i + (b' + 1) + sub * 32) = s.records (i + (b' + 1) + sub * 32) := by
        by_cases hb0 : v % 2 = 1
        · rw [if_pos hb0, kickOne_records, if_neg hne]
        · rw [if_neg hb0]
      have hih := ih (i + 1) (v / 2)
        (if v % 2 = 1 then kickOne (i + sub * 32) s else s) b' (by omega) hrec
      have hidx : i + 1 + b' + sub * 32 = i + (b' + 1) + sub * 32 := by omega
      rw [hidx] at hih
      rw [hih, hstep]

theorem kickBits_fence_mono (sub : Nat) :
    ∀ fuel i v s, s.fence_signaled = true →
      (kickBits sub fuel i v s).fence_signaled = true := by
  intro fuel
  induction fuel with
  | zero => intro i v s h; exact h
  | succ n ih =>
    intro i v s h
    unfold kickBits
    by_cases hv : v = 0
    · rw [if_pos hv]; exact h
    · rw [if_neg hv]
      apply ih
      by_cases hb : v % 2 = 1
      · rw [if_pos hb]; rfl
      · rw [if_neg hb]; exact h

theorem kickBits_fence_hit (sub : Nat) :
    ∀ fuel i v s b, b < fuel → v / 2 ^ b % 2 = 1 →
      (kickBits sub fuel i v s).fence_signaled = true := by
  intro fuel
  induction fuel with
  | zero => intro i v s b hb; omega
  | succ n ih =>
    intro i v s b hb hbit
    have hv : v ≠ 0 := by
      intro h0
      rw [h0] at hbit
      simp at hbit
    unfold kickBits
    rw [if_neg hv]
    cases b with
    | zero =>
      have hb0 : v % 2 = 1 := by simpa using hbit
      rw [if_pos hb0]
      exact kickBits_fence_mono sub n (i + 1) (v / 2) _ rfl
    | succ b' =>
      have hrec : v / 2 / 2 ^ b' % 2 = 1 := by rw [div2_div_pow]; exact hbit
      exact ih (i + 1) (v / 2) _ b' (by omega) hrec

theorem ofWords_InRange (w : List Nat) :
    (XMA_CONTEXT_DATA.ofWords w).InRange := by
  refine ⟨Nat.mod_lt _ (by norm_num), Nat.mod_lt _ (by norm_num),
    Nat.mod_lt _ (by norm_num), Nat.mod_lt _ (by norm_num),
    Nat.mod_lt _ (by norm_num), Nat.mod_lt _ (by norm_num),
    Nat.mod_lt _ (by norm_num), Nat.mod_lt _ (by norm_num),
    Nat.mod_lt _ (by norm_num), Nat.mod_lt _ (by norm_num),
    Nat.mod_lt _ (by norm_num), Nat.mod_lt _ (by norm_num),
    Nat.mod_lt _ (by norm_num), Nat.mod_lt _ (by norm_num),
    Nat.mod_lt _ (by norm_num), Nat.mod_lt _ (by norm_num),
    Nat.mod_lt _ (by norm_num), Nat.mod_lt _ (by norm_num),
    Nat.mod_lt _ (by norm_num), Nat.mod_lt _ (by norm_num),
    Nat.mod_lt _ (by norm_num), Nat.mod_lt _ (by norm_num),
    Nat.mod_lt _ (by norm_num), Nat.mod_lt _ (by norm_num),
    Nat.mod_lt _ (by norm_num), Nat.mod_lt _ (by norm_num),
    Nat.mod_lt _ (by norm_num), Nat.mod_lt _ (by norm_num),
    Nat.mod_lt _ (by norm_num), rfl, ?_⟩
  intro x hx
  have hx' : x ∈ [w.getD 10 0 % 2 ^ 32, w.getD 11 0 % 2 ^ 32,
      w.getD 12 0 % 2 ^ 32, w.getD 13 0 % 2 ^ 32, w.getD 14 0 % 2 ^ 32,
      w.getD 15 0 % 2 ^ 32] := hx
  simp only [List.mem_cons, List.not_mem_nil, or_false] at hx'
  rcases hx' with h | h | h | h | h | h <;> subst h <;>
    exact Nat.mod_lt _ (by norm_num)

theorem kickContextData_InRange (d : XMA_CONTEXT_DATA) (h : d.InRange) :
    (kickContextData d).InRange := by
  obtain ⟨h1, h2, _, _, h5, _, h7, h8, h9, h10, h11, h12, h13, h14, h15, h16,
    h17, h18, h19, h20, h21, h22, h23, h24, h25, h26, h27, h28, h29, hlen,
    hu⟩ := h
  refine ⟨h1, h2, ?_, ?_, h5, ?_, h7, h8, h9, h10, h11, h12, h13, h14, h15,
    h16, h17, h18, h19, h20, h21, h22, h23, h24, h25, h26, h27, h28, h29,
    hlen, hu⟩
  · show (if d.input_buffer_0_ptr ≠ 0 then 1 else 0) < 2
    split <;> norm_num
  · show (if d.input_buffer_1_ptr ≠ 0 then 1 else 0) < 2
    split <;> norm_num
  · show (0 : Nat) < 2 ^ 5
    norm_num

theorem loadRecord_kickedWire (m : List Nat) :
    loadRecord (kickedWire m) = kickContextData (loadRecord m) :=
  loadRecord_storeRecord _
    (kickContextData_InRange _ (ofWords_InRange _))

/-- Claim C1: a write to kick register `0x1940 + 4*k` (k ≤ 9) updates, for
every set bit `b` of the written logical 32-bit value, exactly the guest
record of context `b + k*32`: its input-valid flags are assigned 1 exactly
when the corresponding input buffer pointer is non-zero (so kicking a
context with zero buffer pointers is legal and simply leaves the flags
clear), its output write offset is zeroed, and the decoder wake fence is
signaled; the record of every context not addressed by a set bit is
untouched. -/
theorem kick_command_effect (s : AudioSystemState) (addr value k : Nat)
    (hk : k ≤ 9) (haddr : addr % 65536 = 0x1940 + 4 * k) :
    (∀ b, b < 32 → byteSwap32 (value % 2 ^ 32) / 2 ^ b % 2 = 1 →
      (writeRegister s addr value).records (b + k * 32) =
          kickedWire (s.records (b + k * 32)) ∧
        (loadRecord ((writeRegister s addr value).records
            (b + k * 32))).input_buffer_0_valid =
          (if (loadRecord (s.records (b + k * 32))).input_buffer_0_ptr ≠ 0
            then 1 else 0) ∧
        (loadRecord ((writeRegister s addr value).records
            (b + k * 32))).input_buffer_1_valid =
          (if (loadRecord (s.records (b + k * 32))).input_buffer_1_ptr ≠ 0
            then 1 else 0) ∧
        (loadRecord ((writeRegister s addr value).records
            (b + k * 32))).output_buffer_write_offset = 0 ∧
        (writeRegister s addr value).fence_signaled = true) ∧
    (∀ j, (∀ b, b < 32 → byteSwap32 (value % 2 ^ 32) / 2 ^ b % 2 = 1 →
        j ≠ b + k * 32) →
      (writeRegister s addr value).records j = s.records j) := by
  have hcond : 0x1940 ≤ addr % 65536 ∧ addr % 65536 ≤ 0x1940 + 9 * 4 := by
    omega
  have hsub : (addr % 65536 - 0x1940) / 4 = k := by omega
  have hw : writeRegister s addr value =
      kickBits k 32 0 (byteSwap32 (value % 2 ^ 32))
        { s with register_file := fun i =>
            if i = addr % 65536 / 4 then byteSwap32 (value % 2 ^ 32)
            else s.register_file i } := by
    unfold writeRegister
    rw [if_pos hcond, hsub]
  constructor
  · intro b hb hbit
    have hhit := kickBits_records_hit k 32 0 (byteSwap32 (value % 2 ^ 32))
      { s with register_file := fun i =>
          if i = addr % 65536 / 4 then byteSwap32 (value % 2 ^ 32)
          else s.register_file i } b hb hbit
    have hidx : 0 + b + k * 32 = b + k * 32 := by omega
    rw [hidx] at hhit
    have hrec : (writeRegister s addr value).records (b + k * 32) =
        kickedWire (s.records (b + k * 32)) := by
      rw [hw]; exact hhit
    refine ⟨hrec, ?_, ?_, ?_, ?_⟩
    · rw [hrec, loadRecord_kickedWire]; rfl
    · rw [hrec, loadRecord_kickedWire]; rfl
    · rw [hrec, loadRecord_kickedWire]; rfl
    · rw [hw]
      exact kickBits_fence_hit k 32 0 _ _ b hb hbit
  · intro j hj
    rw [hw]
    apply kickBits_records_miss
    intro b hb hbit
    have := hj b hb hbit
    omega

/-- Witness for C1: kicking sub-range 1 (register 0x1944) with logical
value 5 (bits 0 and 2, contexts 32 and 34) from the post-setup state. -/
theorem kick_command_effect_witness :
    (1 ≤ 9 ∧ 6468 % 65536 = 0x1940 + 4 * 1) ∧
    ((∀ b, b < 32 → byteSwap32 (83886080 % 2 ^ 32) / 2 ^ b % 2 = 1 →
      (writeRegister initState 6468 83886080).records (b + 1 * 32) =
          kickedWire (initState.records (b + 1 * 32)) ∧
        (loadRecord ((writeRegister initState 6468 83886080).records
            (b + 1 * 32))).input_buffer_0_valid =
          (if (loadRecord (initState.records
              (b + 1 * 32))).input_buffer_0_ptr ≠ 0 then 1 else 0) ∧
        (loadRecord ((writeRegister initState 6468 83886080).records
            (b + 1 * 32))).input_buffer_1_valid =
          (if (loadRecord (initState.records
              (b + 1 * 32))).input_buffer_1_ptr ≠ 0 then 1 else 0) ∧
        (loadRecord ((writeRegister initState 6468 83886080).records
            (b + 1 * 32))).output_buffer_write_offset = 0 ∧
        (writeRegister initState 6468 83886080).fence_signaled = true) ∧
    (∀ j, (∀ b, b < 32 → byteSwap32 (83886080 % 2 ^ 32) / 2 ^ b % 2 = 1 →
        j ≠ b + 1 * 32) →
      (writeRegister initState 6468 83886080).records j =
        initState.records j)) :=
  ⟨⟨by decide, by decide⟩,
    kick_command_effect initState 6468 83886080 1 (by decide) (by decide)⟩

/-- Claim C4: N consecutive reads of the status register 0x1818 return the
byte-swapped values (start + k) mod 320 for k = 0 .. N-1, for any
interleaving of other register reads and of writes to ANY register
(including writes to 0x1818 itself): the value returned is never the last
value written, but the rotating counter. -/
theorem rotating_status_register (ops : List RegOp) (s : AudioSystemState)
    (hs : s.next_context < 320) :
    (runOps ops s).1 = (List.range (statusReadCount ops)).map
      (fun k => byteSwap32 ((s.next_context + k) % 320)) := by
  induction ops generalizing s with
  | nil => simp [runOps, statusReadCount]
  | cons op rest ih =>
    cases op with
    | read a =>
      by_cases ha : a % 65536 = 0x1818
      · have hrr : readRegister s a = (byteSwap32 s.next_context,
            { s with
              current_context := s.next_context
              next_context := (s.next_context + 1) % kXmaContextCount }) := by
          unfold readRegister
          rw [if_pos ha]
        simp only [runOps, hrr, ha, if_pos, statusReadCount]
        have hlt : ((s.next_context + 1) % kXmaContextCount) < 320 := by
          unfold kXmaContextCount
          omega
        rw [ih _ hlt]
        have hcount : (1 : Nat) + statusReadCount rest =
            statusReadCount rest + 1 := by omega
        rw [hcount, List.range_succ_eq_map, List.map_cons, List.map_map]
        refine List.cons_eq_cons.mpr ⟨by rw [Nat.add_zero,
          Nat.mod_eq_of_lt hs], ?_⟩
        apply List.map_congr_left
        intro k _
        simp only [Function.comp_apply, kXmaContextCount]
        congr 1
        omega
      · have hrr : readRegister s a =
            (byteSwap32 (s.register_file (a % 65536 / 4)), s) := by
          unfold readRegister
          rw [if_neg ha]
        simp only [runOps, hrr, statusReadCount, if_neg ha, Nat.zero_add]
        exact ih s hs
    | write a v =>
      simp only [runOps, statusReadCount]
      have h2 : (writeRegister s a v).next_context = s.next_context :=
        writeRegister_next s a v
      rw [ih (writeRegister s a v) (by rw [h2]; exact hs), h2]

/-- Witness for C4: five accesses against the post-setup state, three of
them status reads, with a write to the status register and a kick write in
between. -/
theorem rotating_status_register_witness :
    initState.next_context < 320 ∧
    (runOps [RegOp.read 0x1818, RegOp.write 0x1818 999,
        RegOp.read 0x1818, RegOp.write 0x1940 16777216,
        RegOp.read 0x1818] initState).1 =
      (List.range (statusReadCount [RegOp.read 0x1818, RegOp.write 0x1818 999,
        RegOp.read 0x1818, RegOp.write 0x1940 16777216,
        RegOp.read 0x1818])).map
        (fun k => byteSwap32 ((initState.next_context + k) % 320)) :=
  ⟨by decide, rotating_status_register _ initState (by decide)⟩

/-- Witness for C3 at a concrete wire record. -/
theorem xma_record_roundtrip_witness :
    ([305419896, 0, 4294967295, 1, 2, 3, 4, 5, 6, 7, 8, 9, 10, 11, 12,
        13].length = 16 ∧
      (∀ x ∈ [305419896, 0, 4294967295, 1, 2, 3, 4, 5, 6, 7, 8, 9, 10, 11,
        12, 13], x < 2 ^ 32)) ∧
    storeRecord (loadRecord [305419896, 0, 4294967295, 1, 2, 3, 4, 5, 6, 7,
        8, 9, 10, 11, 12, 13]) =
      [305419896, 0, 4294967295, 1, 2, 3, 4, 5, 6, 7, 8, 9, 10, 11, 12, 13] :=
  ⟨⟨by decide, by decide⟩,
    (xma_record_roundtrip _ (by decide) (by decide)).1⟩

theorem allocFrom_exhausted :
    ∀ fuel n s, (∀ m, n ≤ m → m < n + fuel → (s.slots m).in_use = true) →
      allocFrom fuel n s = (0, s) := by
  intro fuel
  induction fuel with
  | zero => intro n s _; rfl
  | succ k ih =>
    intro n s h
    unfold allocFrom
    have hn : (s.slots n).in_use = true := h n (le_refl n) (by omega)
    rw [if_neg (by simp [hn])]
    exact ih (n + 1) s (fun m hm hm2 => h m (by omega) (by omega))

theorem allocFrom_found :
    ∀ fuel n s i, n ≤ i → i < n + fuel → (s.slots i).in_use = false →
      (∀ m, n ≤ m → m < i → (s.slots m).in_use = true) →
      allocFrom fuel n s = ((s.slots i).guest_ptr,
        { s with slots := fun j =>
            if j = i then { guest_ptr := (s.slots i).guest_ptr, in_use := true }
            else s.slots j }) := by
  intro fuel
  induction fuel with
  | zero => intro n s i h1 h2; omega
  | succ k ih =>
    intro n s i h1 h2 hfree hbusy
    unfold allocFrom
    by_cases hn : n = i
    · subst hn
      rw [if_pos hfree]
    · have hnb : (s.slots n).in_use = true := hbusy n (le_refl n) (by omega)
      rw [if_neg (by simp [hnb])]
      exact ih (n + 1) s i (by omega) (by omega) hfree
        (fun m hm hm2 => hbusy m (by omega) hm2)

theorem allocate_found (s : AudioSystemState) (i : Nat) (hi : i < 320)
    (hfree : (s.slots i).in_use = false)
    (hmin : ∀ m, m < i → (s.slots m).in_use = true) :
    allocateXmaContext s = ((s.slots i).guest_ptr,
      { s with slots := fun j =>
          if j = i then { guest_ptr := (s.slots i).guest_ptr, in_use := true }
          else s.slots j }) :=
  allocFrom_found 320 0 s i (Nat.zero_le i) (by omega) hfree
    (fun m _ hm2 => hmin m hm2)

theorem allocate_exhausted (s : AudioSystemState)
    (h : ∀ i, i < 320 → (s.slots i).in_use = true) :
    allocateXmaContext s = (0, s) :=
  allocFrom_exhausted 320 0 s (fun m _ hm2 => h m (by omega))

/-- Claim C5: AllocateXmaContext returns the first free slot's guest
address and marks exactly that slot used; returns zero when every slot is
used; and, when slot addresses are distinct (as Setup makes them), two
allocations with no intervening release never return the same non-zero
address. -/
theorem allocate_xma_context_correct (s : AudioSystemState)
    (hinj : ∀ i j, i < 320 → j < 320 → i ≠ j →
      (s.slots i).guest_ptr ≠ (s.slots j).guest_ptr) :
    (∀ i, i < 320 → (s.slots i).in_use = false →
      (∀ m, m < i → (s.slots m).in_use = true) →
      allocateXmaContext s = ((s.slots i).guest_ptr,
        { s with slots := fun j =>
            if j = i then { guest_ptr := (s.slots i).guest_ptr, in_use := true }
            else s.slots j })) ∧
    ((∀ i, i < 320 → (s.slots i).in_use = true) →
      allocateXmaContext s = (0, s)) ∧
    (∀ a1 s1 a2 s2, allocateXmaContext s = (a1, s1) →
      allocateXmaContext s1 = (a2, s2) → a1 ≠ 0 → a2 ≠ a1) := by
  refine ⟨fun i hi hfree hmin => allocate_found s i hi hfree hmin,
    allocate_exhausted s, ?_⟩
  intro a1 s1 a2 s2 h1 h2 ha1
  by_cases hex : ∃ n, n < 320 ∧ (s.slots n).in_use = false
  · have hspec := Nat.find_spec hex
    have hmin : ∀ m, m < Nat.find hex → (s.slots m).in_use = true := by
      intro m hm
      have hnot := Nat.find_min hex hm
      have hm320 : m < 320 := lt_trans hm hspec.1
      cases hcase : (s.slots m).in_use
      · exact absurd ⟨hm320, hcase⟩ hnot
      · rfl
    have heq := allocate_found s (Nat.find hex) hspec.1 hspec.2 hmin
    rw [heq] at h1
    injection h1 with ha hs
    subst ha
    have hslots : ∀ j, s1.slots j =
        (if j = Nat.find hex then
          { guest_ptr := (s.slots (Nat.find hex)).guest_ptr, in_use := true }
        else s.slots j) := fun j => by rw [← hs]
    by_cases hex2 : ∃ n, n < 320 ∧ (s1.slots n).in_use = false
    · have hspec2 := Nat.find_spec hex2
      have hmin2 : ∀ m, m < Nat.find hex2 → (s1.slots m).in_use = true := by
        intro m hm
        have hnot := Nat.find_min hex2 hm
        have hm320 : m < 320 := lt_trans hm hspec2.1
        cases hcase : (s1.slots m).in_use
        · exact absurd ⟨hm320, hcase⟩ hnot
        · rfl
      have heq2 := allocate_found s1 (Nat.find hex2) hspec2.1 hspec2.2 hmin2
      rw [heq2] at h2
      injection h2 with ha2 hs2
      have hne : Nat.find hex2 ≠ Nat.find hex := by
        intro hcontra
        have hused : (s1.slots (Nat.find hex2)).in_use = true := by
          rw [hslots, if_pos hcontra]
        rw [hspec2.2] at hused
        exact Bool.false_ne_true hused
      have hptr2 : (s1.slots (Nat.find hex2)).guest_ptr =
          (s.slots (Nat.find hex2)).guest_ptr := by
        rw [hslots, if_neg hne]
      rw [← ha2, hptr2]
      exact hinj (Nat.find hex2) (Nat.find hex) hspec2.1 hspec.1 hne
    · have hall : ∀ i, i < 320 → (s1.slots i).in_use = true := by
        intro i hi
        cases hcase : (s1.slots i).in_use
        · exact absurd ⟨i, hi, hcase⟩ hex2
        · rfl
      have h0 := allocate_exhausted s1 hall
      rw [h0] at h2
      injection h2 with ha2 _
      rw [← ha2]
      exact fun hcontra => ha1 hcontra.symm
  · have hall : ∀ i, i < 320 → (s.slots i).in_use = true := by
      intro i hi
      cases hcase : (s.slots i).in_use
      · exact absurd ⟨i, hi, hcase⟩ hex
      · rfl
    have h0 := allocate_exhausted s hall
    rw [h0] at h1
    injection h1 with ha _
    rw [← ha] at ha1
    exact absurd rfl ha1

/-- Witness for C5 at the post-setup state, whose slot addresses
4096 + 64*i are pairwise distinct. -/
theorem allocate_xma_context_correct_witness :
    (∀ i j, i < 320 → j < 320 → i ≠ j →
      (initState.slots i).guest_ptr ≠ (initState.slots j).guest_ptr) ∧
    ((∀ i, i < 320 → (initState.slots i).in_use = false →
      (∀ m, m < i → (initState.slots m).in_use = true) →
      allocateXmaContext initState = ((initState.slots i).guest_ptr,
        { initState with slots := fun j =>
            if j = i then
              { guest_ptr := (initState.slots i).guest_ptr, in_use := true }
            else initState.slots j })) ∧
    ((∀ i, i < 320 → (initState.slots i).in_use = true) →
      allocateXmaContext initState = (0, initState)) ∧
    (∀ a1 s1 a2 s2, allocateXmaContext initState = (a1, s1) →
      allocateXmaContext s1 = (a2, s2) → a1 ≠ 0 → a2 ≠ a1)) :=
  have hinj : ∀ i j, i < 320 → j < 320 → i ≠ j →
      (initState.slots i).guest_ptr ≠ (initState.slots j).guest_ptr :=
    fun i j _ _ hne => by
      show 4096 + i * 64 ≠ 4096 + j * 64
      omega
  ⟨hinj, allocate_xma_context_correct initState hinj⟩

theorem releaseStep_slots (a n : Nat) (s : AudioSystemState) (j : Nat) :
    (releaseStep a n s).slots j =
      if (s.slots n).guest_ptr = a ∧ j = n then
        { guest_ptr := (s.slots n).guest_ptr, in_use := false }
      else s.slots j := by
  unfold releaseStep
  by_cases hm : (s.slots n).guest_ptr = a
  · rw [if_pos hm]
    show (if j = n then
        { guest_ptr := (s.slots n).guest_ptr, in_use := false }
      else s.slots j) = _
    by_cases hj : j = n
    · rw [if_pos hj, if_pos ⟨hm, hj⟩]
    · rw [if_neg hj, if_neg (fun hc => hj hc.2)]
  · rw [if_neg hm, if_neg (fun hc => hm hc.1)]

theorem releaseStep_records (a n : Nat) (s : AudioSystemState) (j : Nat) :
    (releaseStep a n s).records j =
      if (s.slots n).guest_ptr = a ∧ j = n then List.replicate 16 0
      else s.records j := by
  unfold releaseStep
  by_cases hm : (s.slots n).guest_ptr = a
  · rw [if_pos hm]
    show (if j = n then List.replicate 16 0 else s.records j) = _
    by_cases hj : j = n
    · rw [if_pos hj, if_pos ⟨hm, hj⟩]
    · rw [if_neg hj, if_neg (fun hc => hj hc.2)]
  · rw [if_neg hm, if_neg (fun hc => hm hc.1)]

theorem releaseFrom_below (a : Nat) :
    ∀ fuel n s j, j < n →
      (releaseFrom a fuel n s).slots j = s.slots j ∧
        (releaseFrom a fuel n s).records j = s.records j := by
  intro fuel
  induction fuel with
  | zero => intro n s j _; exact ⟨rfl, rfl⟩
  | succ k ih =>
    intro n s j hj
    have hrec := ih (n + 1) (releaseStep a n s) j (by omega)
    have hs1 : (releaseStep a n s).slots j = s.slots j := by
      rw [releaseStep_slots, if_neg (fun hc => (by omega : j ≠ n) hc.2)]
    have hs2 : (releaseStep a n s).records j = s.records j := by
      rw [releaseStep_records, if_neg (fun hc => (by omega : j ≠ n) hc.2)]
    constructor
    · show (releaseFrom a k (n + 1) (releaseStep a n s)).slots j = s.slots j
      rw [hrec.1, hs1]
    · show (releaseFrom a k (n + 1) (releaseStep a n s)).records j =
        s.records j
      rw [hrec.2, hs2]

theorem releaseFrom_no_match (a : Nat) :
    ∀ fuel n s, (∀ m, n ≤ m → m < n + fuel → (s.slots m).guest_ptr ≠ a) →
      releaseFrom a fuel n s = s := by
  intro fuel
  induction fuel with
  | zero => intro n s _; rfl
  | succ k ih =>
    intro n s h
    have hstep : releaseStep a n s = s := by
      unfold releaseStep
      rw [if_neg (h n (le_refl n) (by omega))]
    show releaseFrom a k (n + 1) (releaseStep a n s) = s
    rw [hstep]
    exact ih (n + 1) s (fun m hm hm2 => h m (by omega) (by omega))

theorem releaseFrom_slots_free (a : Nat) :
    ∀ fuel n s,
      (∀ m, (s.slots m).guest_ptr = a → (s.slots m).in_use = false) →
      ∀ j, (releaseFrom a fuel n s).slots j = s.slots j := by
  intro fuel
  induction fuel with
  | zero => intro n s _ j; rfl
  | succ k ih =>
    intro n s h j
    have hstep : ∀ m, (releaseStep a n s).slots m = s.slots m := by
      intro m
      rw [releaseStep_slots]
      by_cases hc : (s.slots n).guest_ptr = a ∧ m = n
      · rw [if_pos hc]
        obtain ⟨hm, hmn⟩ := hc
        subst hmn
        exact XMAContextSlot.ext rfl (h m hm).symm
      · rw [if_neg hc]
    have hpres : ∀ m, ((releaseStep a n s).slots m).guest_ptr = a →
        ((releaseStep a n s).slots m).in_use = false := by
      intro m hm
      rw [hstep m] at hm ⊢
      exact h m hm
    show (releaseFrom a k (n + 1) (releaseStep a n s)).slots j = s.slots j
    rw [ih (n + 1) (releaseStep a n s) hpres j, hstep j]

theorem releaseFrom_idem (a : Nat) :
    ∀ fuel n s,
      releaseFrom a fuel n (releaseFrom a fuel n s) = releaseFrom a fuel n s := by
  intro fuel
  induction fuel with
  | zero => intro n s; rfl
  | succ k ih =>
    intro n s
    have key : releaseStep a n (releaseFrom a k (n + 1) (releaseStep a n s)) =
        releaseFrom a k (n + 1) (releaseStep a n s) := by
      have hb := releaseFrom_below a k (n + 1) (releaseStep a n s) n (by omega)
      by_cases hm : (s.slots n).guest_ptr = a
      · have hts : (releaseStep a n s).slots n =
            { guest_ptr := (s.slots n).guest_ptr, in_use := false } := by
          rw [releaseStep_slots, if_pos ⟨hm, rfl⟩]
        have htr : (releaseStep a n s).records n = List.replicate 16 0 := by
          rw [releaseStep_records, if_pos ⟨hm, rfl⟩]
        set R := releaseFrom a k (n + 1) (releaseStep a n s) with hR
        unfold releaseStep
        rw [if_pos (by rw [hb.1, hts]; exact hm)]
        refine AudioSystemState.ext rfl rfl rfl ?_ ?_ rfl
        · funext j
          show (if j = n then
              { guest_ptr := (R.slots n).guest_ptr, in_use := false }
            else R.slots j) = R.slots j
          by_cases hj : j = n
          · subst hj
            rw [if_pos rfl]
            exact XMAContextSlot.ext rfl (by rw [hb.1, hts])
          · rw [if_neg hj]
        · funext j
          show (if j = n then List.replicate 16 0 else R.records j) =
            R.records j
          by_cases hj : j = n
          · subst hj
            rw [if_pos rfl, hb.2, htr]
          · rw [if_neg hj]
      · have hts : releaseStep a n s = s := by
          unfold releaseStep
          rw [if_neg hm]
        set R := releaseFrom a k (n + 1) (releaseStep a n s) with hR
        unfold releaseStep
        rw [if_neg (by rw [hb.1, hts]; exact hm)]
    show releaseFrom a k (n + 1)
        (releaseStep a n (releaseFrom a k (n + 1) (releaseStep a n s))) =
      releaseFrom a k (n + 1) (releaseStep a n s)
    rw [key]
    exact ih (n + 1) (releaseStep a n s)

/-- Claim C6: releasing a guest address that matches no slot is a complete
no-op (and reports nothing); releasing an address whose matching slots were
never allocated leaves every slot of the pool unchanged; and release is
idempotent (in fact unconditionally). -/
theorem releaseXmaContext_eq (s : AudioSystemState) (a : Nat) :
    releaseXmaContext s a = releaseFrom a 320 0 s := by
  unfold releaseXmaContext kXmaContextCount
  rfl

theorem release_xma_context_noop (s : AudioSystemState) (a : Nat) :
    ((∀ n, n < 320 → (s.slots n).guest_ptr ≠ a) →
      releaseXmaContext s a = s) ∧
    ((∀ n, (s.slots n).guest_ptr = a → (s.slots n).in_use = false) →
      ∀ j, (releaseXmaContext s a).slots j = s.slots j) ∧
    releaseXmaContext (releaseXmaContext s a) a = releaseXmaContext s a := by
  simp only [releaseXmaContext_eq]
  refine ⟨?_, ?_, ?_⟩
  · intro h
    exact releaseFrom_no_match a 320 0 s (fun m _ hm2 => h m (by omega))
  · intro h
    exact releaseFrom_slots_free a 320 0 s h
  · exact releaseFrom_idem a 320 0 s

/-- Witness for C6: releasing address 0, which matches no slot of the
post-setup pool. -/
theorem release_xma_context_noop_witness :
    (∀ n, n < 320 → (initState.slots n).guest_ptr ≠ 0) ∧
    releaseXmaContext initState 0 = initState :=
  have h : ∀ n, n < 320 → (initState.slots n).guest_ptr ≠ 0 := fun n _ => by
    show 4096 + n * 64 ≠ 0
    omega
  ⟨h, (release_xma_context_noop initState 0).1 h⟩

theorem decodeStep_input_done {σ : Type} (D : Decoder σ)
    (st : XMA_CONTEXT_DATA × σ)
    (h : sub64 ((st.1.input_buffer_0_packet_count +
        st.1.input_buffer_1_packet_count) * 2048)
      (sub64 (st.1.input_buffer_read_offset / 8) 4) = 0) :
    decodeStep D st = Sum.inl st := by
  unfold decodeStep
  rw [if_pos h]

theorem decodeStep_output_full {σ : Type} (D : Decoder σ)
    (st : XMA_CONTEXT_DATA × σ)
    (h1 : ¬sub64 ((st.1.input_buffer_0_packet_count +
        st.1.input_buffer_1_packet_count) * 2048)
      (sub64 (st.1.input_buffer_read_offset / 8) 4) = 0)
    (h2 : sub64 (st.1.output_buffer_block_count * 256)
      (st.1.output_buffer_write_offset * 256) = 0) :
    decodeStep D st = Sum.inl st := by
  unfold decodeStep
  rw [if_neg h1, if_pos h2]

theorem decodeStep_error {σ : Type} (D : Decoder σ)
    (st : XMA_CONTEXT_DATA × σ)
    (h1 : ¬sub64 ((st.1.input_buffer_0_packet_count +
        st.1.input_buffer_1_packet_count) * 2048)
      (sub64 (st.1.input_buffer_read_offset / 8) 4) = 0)
    (h2 : ¬sub64 (st.1.output_buffer_block_count * 256)
      (st.1.output_buffer_write_offset * 256) = 0)
    (h3 : (D.decodePacket st.2 (st.1.output_buffer_write_offset * 256)
      (sub64 (st.1.output_buffer_block_count * 256)
        (st.1.output_buffer_write_offset * 256))).1 < 0) :
    decodeStep D st = Sum.inl (st.1, D.discardPacket
      (D.decodePacket st.2 (st.1.output_buffer_write_offset * 256)
        (sub64 (st.1.output_buffer_block_count * 256)
          (st.1.output_buffer_write_offset * 256))).2) := by
  unfold decodeStep
  rw [if_neg h1, if_neg h2, if_pos h3]

theorem decodeStep_zero {σ : Type} (D : Decoder σ)
    (st : XMA_CONTEXT_DATA × σ)
    (h1 : ¬sub64 ((st.1.input_buffer_0_packet_count +
        st.1.input_buffer_1_packet_count) * 2048)
      (sub64 (st.1.input_buffer_read_offset / 8) 4) = 0)
    (h2 : ¬sub64 (st.1.output_buffer_block_count * 256)
      (st.1.output_buffer_write_offset * 256) = 0)
    (h3 : ¬(D.decodePacket st.2 (st.1.output_buffer_write_offset * 256)
      (sub64 (st.1.output_buffer_block_count * 256)
        (st.1.output_buffer_write_offset * 256))).1 < 0)
    (h4 : (D.decodePacket st.2 (st.1.output_buffer_write_offset * 256)
      (sub64 (st.1.output_buffer_block_count * 256)
        (st.1.output_buffer_write_offset * 256))).1 = 0) :
    decodeStep D st = Sum.inr (writeBack st.1
      ((sub64 (st.1.input_buffer_read_offset / 8) 4 + 2048) % 2 ^ 64)
      ((st.1.output_buffer_write_offset * 256 +
        (D.decodePacket st.2 (st.1.output_buffer_write_offset * 256)
          (sub64 (st.1.output_buffer_block_count * 256)
            (st.1.output_buffer_write_offset * 256))).1.toNat) % 2 ^ 64),
      D.preparePacket
        (D.decodePacket st.2 (st.1.output_buffer_write_offset * 256)
          (sub64 (st.1.output_buffer_block_count * 256)
            (st.1.output_buffer_write_offset * 256))).2
        (sub64 (st.1.input_buffer_read_offset / 8) 4)
        (if st.1.sample_rate = 0 then 24000
         else if st.1.sample_rate = 1 then 32000
         else if st.1.sample_rate = 2 then 44100
         else if st.1.sample_rate = 3 then 48000
         else 0)
        (if st.1.is_stereo = 1 then 2 else 1)) := by
  unfold decodeStep
  rw [if_neg h1, if_neg h2, if_neg h3, if_pos h4]

theorem decodeStep_pos {σ : Type} (D : Decoder σ)
    (st : XMA_CONTEXT_DATA × σ)
    (h1 : ¬sub64 ((st.1.input_buffer_0_packet_count +
        st.1.input_buffer_1_packet_count) * 2048)
      (sub64 (st.1.input_buffer_read_offset / 8) 4) = 0)
    (h2 : ¬sub64 (st.1.output_buffer_block_count * 256)
      (st.1.output_buffer_write_offset * 256) = 0)
    (h3 : ¬(D.decodePacket st.2 (st.1.output_buffer_write_offset * 256)
      (sub64 (st.1.output_buffer_block_count * 256)
        (st.1.output_buffer_write_offset * 256))).1 < 0)
    (h4 : ¬(D.decodePacket st.2 (st.1.output_buffer_write_offset * 256)
      (sub64 (st.1.output_buffer_block_count * 256)
        (st.1.output_buffer_write_offset * 256))).1 = 0) :
    decodeStep D st = Sum.inr (writeBack st.1
      (sub64 (st.1.input_buffer_read_offset / 8) 4)
      ((st.1.output_buffer_write_offset * 256 +
        (D.decodePacket st.2 (st.1.output_buffer_write_offset * 256)
          (sub64 (st.1.output_buffer_block_count * 256)
            (st.1.output_buffer_write_offset * 256))).1.toNat) % 2 ^ 64),
      (D.decodePacket st.2 (st.1.output_buffer_write_offset * 256)
        (sub64 (st.1.output_buffer_block_count * 256)
          (st.1.output_buffer_write_offset * 256))).2) := by
  unfold decodeStep
  rw [if_neg h1, if_neg h2, if_neg h3, if_neg h4]

theorem writeBack_fields (d : XMA_CONTEXT_DATA) (io oo : Nat) :
    (writeBack d io oo).input_buffer_read_offset = (io + 4) * 8 % 2 ^ 26 ∧
    (writeBack d io oo).output_buffer_write_offset = oo / 256 % 2 ^ 5 ∧
    (writeBack d io oo).input_buffer_0_packet_count =
      d.input_buffer_0_packet_count ∧
    (writeBack d io oo).input_buffer_1_packet_count =
      d.input_buffer_1_packet_count ∧
    (writeBack d io oo).output_buffer_block_count =
      d.output_buffer_block_count :=
  ⟨rfl, rfl, rfl, rfl, rfl⟩

theorem loopRun_succ_inl {α : Type} (step : α → α ⊕ α) (m : Nat) (a stop : α)
    (h : step a = Sum.inl stop) : loopRun step (m + 1) a = some stop := by
  unfold loopRun
  rw [h]

theorem loopRun_succ_inr {α : Type} (step : α → α ⊕ α) (m : Nat) (a a' : α)
    (h : step a = Sum.inr a') : loopRun step (m + 1) a = loopRun step m a' := by
  conv_lhs => unfold loopRun
  rw [h]

theorem iterW_succ_inl {α : Type} (step : α → α ⊕ α) (n : Nat) (a x : α)
    (h : step a = Sum.inl x) : iterW step (n + 1) a = none := by
  unfold iterW
  rw [h]

theorem iterW_succ_inr {α : Type} (step : α → α ⊕ α) (n : Nat) (a a' : α)
    (h : step a = Sum.inr a') : iterW step (n + 1) a = iterW step n a' := by
  conv_lhs => unfold iterW
  rw [h]

theorem loopRun_of_iterW {α : Type} (step : α → α ⊕ α) :
    ∀ n fuel a0 a stop, iterW step n a0 = some a → step a = Sum.inl stop →
      n < fuel → loopRun step fuel a0 = some stop := by
  intro n
  induction n with
  | zero =>
    intro fuel a0 a stop h0 hstep hf
    have hst : a0 = a := by
      have h0' : some a0 = some a := h0
      injection h0'
    subst hst
    cases fuel with
    | zero => omega
    | succ m => exact loopRun_succ_inl step m a0 stop hstep
  | succ k ih =>
    intro fuel a0 a stop h0 hstep hf
    cases hds : step a0 with
    | inl x =>
      rw [iterW_succ_inl step k a0 x hds] at h0
      exact absurd h0 (by simp)
    | inr a1 =>
      rw [iterW_succ_inr step k a0 a1 hds] at h0
      cases fuel with
      | zero => omega
      | succ m =>
        rw [loopRun_succ_inr step m a0 a1 hds]
        exact ih m a1 a stop h0 hstep (by omega)

theorem runLoop_of_iterN {σ : Type} (D : Decoder σ) (n fuel : Nat)
    (s0 st stop : XMA_CONTEXT_DATA × σ) (h0 : iterN D n s0 = some st)
    (hstep : decodeStep D st = Sum.inl stop) (hf : n < fuel) :
    runLoop D fuel s0 = some stop :=
  loopRun_of_iterW (decodeStep D) n fuel s0 st stop h0 hstep hf

/-- Claim C10: an `NtWriteFile` call with a zero `event_handle` returns
`X_STATUS_INVALID_HANDLE` and performs no write even when the file handle
is valid, because the validity check after the file lookup tests the event
reference; a successful synchronous write therefore requires a valid
event handle. -/
theorem ntWriteFile_zero_event (event_valid file_valid : Nat → Bool)
    (write_status file_handle : Nat) :
    ntWriteFile event_valid file_valid write_status 0 file_handle =
      some { status := X_STATUS_INVALID_HANDLE, wrote := false,
             event_signaled := false } ∧
    (∀ eh fh r, ntWriteFile event_valid file_valid write_status eh fh =
        some r → r.wrote = true → eh ≠ 0 ∧ event_valid eh = true) := by
  constructor
  · unfold ntWriteFile
    rw [if_pos (by simp)]
  · intro eh fh r h hw
    unfold ntWriteFile at h
    by_cases hc : (eh ≠ 0 && event_valid eh) = false
    · rw [if_pos hc] at h
      injection h with h'
      rw [← h'] at hw
      simp at hw
    · have hb : (eh ≠ 0 && event_valid eh) = true := by
        cases hcase : (eh ≠ 0 && event_valid eh)
        · exact absurd hcase hc
        · rfl
      simp only [Bool.and_eq_true, decide_eq_true_eq] at hb
      exact hb

/-- Witness for C10: with event handle 3 and file handle 4 valid, the
write path runs and indeed has a non-zero, valid event handle. -/
theorem ntWriteFile_zero_event_witness :
    (ntWriteFile (fun h => h == 3) (fun h => h == 4) 0 3 4 =
        some { status := 0, wrote := true, event_signaled := true } ∧
      ({ status := 0, wrote := true, event_signaled := true } :
        NtWriteResult).wrote = true) ∧
    ((3 : Nat) ≠ 0 ∧ (fun h : Nat => h == 3) 3 = true) :=
  ⟨⟨by decide, by decide⟩,
   (ntWriteFile_zero_event (fun h => h == 3) (fun h => h == 4) 0 4).2 3 4
     { status := 0, wrote := true, event_signaled := true }
     (by decide) (by decide)⟩

/-- Counterexample for C9: with no free client slot, `RegisterClient`
reports no status code at all — the code asserts and then reads the front
of an empty `std::queue` (undefined behavior, modelled as `none`) — so
client-slot exhaustion is not reported synchronously as a status code. -/
theorem register_client_exhaustion_unreported :
    registerClient 0 4096 emptyClientTable 5 7 = none := rfl

/-- Claim C9 (amended): `AllocateXmaContext` reports pool exhaustion
synchronously as a zero result with the state unchanged (no blocking, no
queueing); `RegisterClient` has no exhaustion path — with an empty free
queue it asserts and dereferences the empty queue front (undefined
behavior; no status code is produced) — while with a free slot it returns
synchronously with a status. -/
theorem resource_exhaustion_reporting :
    (∀ s : AudioSystemState, (∀ i, i < 320 → (s.slots i).in_use = true) →
      allocateXmaContext s = (0, s)) ∧
    (∀ cr wp s cb arg, ClientTable.unused_clients s = [] →
      registerClient cr wp s cb arg = none) ∧
    (∀ cr wp s cb arg idx rest,
      ClientTable.unused_clients s = idx :: rest →
      ∃ out, registerClient cr wp s cb arg = some out) := by
  refine ⟨allocate_exhausted, ?_, ?_⟩
  · intro cr wp s cb arg h
    unfold registerClient
    rw [h]
  · intro cr wp s cb arg idx rest h
    obtain ⟨ul, cl, evs⟩ := s
    have h' : ul = idx :: rest := h
    subst h'
    have heq : registerClient cr wp ⟨idx :: rest, cl, evs⟩ cb arg =
        if 2 ^ 31 ≤ cr then
          some (cr, idx,
            { unused_clients := idx :: rest, clients := cl,
              events := fun j => if j = idx then false else evs j })
        else
          some (X_STATUS_SUCCESS, idx,
            { unused_clients := rest
              clients := fun j =>
                if j = idx then
                  { callback := cb, callback_arg := arg,
                    wrapped_callback_arg := wp }
                else cl j
              events := fun j => if j = idx then false else evs j }) := rfl
    rw [heq]
    by_cases hc : 2 ^ 31 ≤ cr
    · rw [if_pos hc]
      exact ⟨_, rfl⟩
    · rw [if_neg hc]
      exact ⟨_, rfl⟩

/-- Witness for C9: the full pool yields a zero address unchanged-state
result, and the empty client table yields no status. -/
theorem resource_exhaustion_reporting_witness :
    ((∀ i, i < 320 → (fullPool.slots i).in_use = true) ∧
      allocateXmaContext fullPool = (0, fullPool)) ∧
    (emptyClientTable.unused_clients = [] ∧
      registerClient 3 4096 emptyClientTable 5 7 = none) :=
  ⟨⟨by decide, resource_exhaustion_reporting.1 fullPool (by decide)⟩,
   ⟨rfl, resource_exhaustion_reporting.2.1 3 4096 emptyClientTable 5 7 rfl⟩⟩

/-- Counterexample for C7: client 0's handle is signaled once, its
callback is non-zero but does not submit a frame; after one worker
iteration the handle is still signaled — the worker performed no reset
before re-entering its wait — and a second iteration invokes the same
callback again: one signal, two invocations. -/
theorem worker_signal_double_invocation :
    ((workerIteration (fun _ => false) 2 workerInit).map
        (fun w => (w.events 0, w.invocations)) = some (true, [(5, 9)])) ∧
    ((workerIteration (fun _ => false) 2 workerInit).bind
        (workerIteration (fun _ => false) 2)).map
        (fun w => w.invocations) = some [(5, 9), (5, 9)] := by
  decide

theorem findSignaled_found (ev : Nat → Bool) :
    ∀ fuel n k, n ≤ k → k < n + fuel → ev k = true →
      (∀ j, n ≤ j → j < k → ev j = false) →
      findSignaled ev n fuel = some k := by
  intro fuel
  induction fuel with
  | zero => intro n k h1 h2; omega
  | succ m ih =>
    intro n k h1 h2 hk hmin
    unfold findSignaled
    by_cases hn : n = k
    · subst hn
      rw [if_pos hk]
    · rw [if_neg (by rw [hmin n (le_refl n) (by omega)]; simp)]
      exact ih (n + 1) k (by omega) (by omega) hk
        (fun j hj hj2 => hmin j (by omega) hj2)

theorem findSignaled_none (ev : Nat → Bool) :
    ∀ fuel n, (∀ j, n ≤ j → j < n + fuel → ev j = false) →
      findSignaled ev n fuel = none := by
  intro fuel
  induction fuel with
  | zero => intro n _; rfl
  | succ m ih =>
    intro n h
    unfold findSignaled
    rw [if_neg (by rw [h n (le_refl n) (by omega)]; simp)]
    exact ih (n + 1) (fun j hj hj2 => h j (by omega) (by omega))

theorem invokeClient_events (cb : Nat → Bool) (i : Nat) (s : WorkerState)
    (j : Nat) (hcb : (s.clients i).callback ≠ 0) :
    (invokeClient cb i s).events j =
      if cb i ∧ j = i then false else s.events j := by
  unfold invokeClient
  rw [if_pos hcb]

theorem invokeClient_invocations (cb : Nat → Bool) (i : Nat)
    (s : WorkerState) (hcb : (s.clients i).callback ≠ 0) :
    (invokeClient cb i s).invocations = s.invocations ++
      [((s.clients i).callback, (s.clients i).wrapped_callback_arg)] := by
  unfold invokeClient
  rw [if_pos hcb]

/-- Claim C7 (amended): the worker loop itself performs no reset of a
client's wait handle; the reset happens during the callback, via
`SubmitFrame`.  Provided the signaled client's callback is non-zero and
does submit a frame, one signal produces exactly one invocation, the
handle is clear before the worker re-enters its wait, and the next wait
blocks. -/
theorem worker_single_invocation (cbSubmits : Nat → Bool) (N i : Nat)
    (s : WorkerState) (hiN : i < N) (hsig : s.events i = true)
    (hothers : ∀ j, j ≤ N → j ≠ i → s.events j = false)
    (hcb : (s.clients i).callback ≠ 0) (hsub : cbSubmits i = true) :
    workerIteration cbSubmits N s = some (invokeClient cbSubmits i s) ∧
    (invokeClient cbSubmits i s).invocations = s.invocations ++
      [((s.clients i).callback, (s.clients i).wrapped_callback_arg)] ∧
    (invokeClient cbSubmits i s).events i = false ∧
    workerIteration cbSubmits N (invokeClient cbSubmits i s) = none := by
  have hfind : findSignaled s.events 0 (N + 1) = some i :=
    findSignaled_found s.events (N + 1) 0 i (Nat.zero_le i) (by omega) hsig
      (fun j _ hj2 => hothers j (by omega) (by omega))
  have hev : ∀ j, (invokeClient cbSubmits i s).events j =
      if cbSubmits i ∧ j = i then false else s.events j :=
    fun j => invokeClient_events cbSubmits i s j hcb
  have hallfalse : ∀ j, j ≤ N →
      (invokeClient cbSubmits i s).events j = false := by
    intro j hj
    rw [hev j]
    by_cases hji : j = i
    · rw [if_pos ⟨hsub, hji⟩]
    · rw [if_neg (fun hcon => hji hcon.2)]
      exact hothers j hj hji
  refine ⟨?_, invokeClient_invocations cbSubmits i s hcb,
    hallfalse i (by omega), ?_⟩
  · unfold workerIteration
    rw [hfind]
    show (if i = N then some s else some (pumpFrom cbSubmits N N i s)) =
      some (invokeClient cbSubmits i s)
    rw [if_neg (by omega : ¬i = N)]
    cases N with
    | zero => omega
    | succ M =>
      unfold pumpFrom
      rw [if_neg ?cond]
      case cond =>
        intro hcon
        have hf := hallfalse (i + 1) (by omega)
        rw [hf] at hcon
        exact Bool.false_ne_true hcon.2
  · unfold workerIteration
    rw [findSignaled_none _ (N + 1) 0
      (fun j _ hj2 => hallfalse j (by omega))]

/-- Witness for C7 at the concrete two-client state, with a callback that
submits a frame. -/
theorem worker_single_invocation_witness :
    ((0 < 2 ∧ workerInit.events 0 = true) ∧
      (∀ j, j ≤ 2 → j ≠ 0 → workerInit.events j = false) ∧
      (workerInit.clients 0).callback ≠ 0 ∧
      (fun _ : Nat => true) 0 = true) ∧
    (workerIteration (fun _ => true) 2 workerInit =
        some (invokeClient (fun _ => true) 0 workerInit) ∧
      (invokeClient (fun _ => true) 0 workerInit).invocations =
        workerInit.invocations ++ [((workerInit.clients 0).callback,
          (workerInit.clients 0).wrapped_callback_arg)] ∧
      (invokeClient (fun _ => true) 0 workerInit).events 0 = false ∧
      workerIteration (fun _ => true) 2
        (invokeClient (fun _ => true) 0 workerInit) = none) :=
  ⟨⟨⟨by decide, by decide⟩, by decide, by decide, rfl⟩,
   worker_single_invocation (fun _ => true) 2 0 workerInit (by decide)
     (by decide) (by decide) (by decide) rfl⟩

theorem iterN_eq {σ : Type} (D : Decoder σ) : iterN D = iterW (decodeStep D) :=
  rfl

theorem runLoop_eq {σ : Type} (D : Decoder σ) :
    runLoop D = loopRun (decodeStep D) := rfl

theorem decodeStep_inr_shape {σ : Type} (D : Decoder σ)
    (st st' : XMA_CONTEXT_DATA × σ) (h : decodeStep D st = Sum.inr st') :
    st'.1 = { st.1 with
      input_buffer_read_offset := st'.1.input_buffer_read_offset
      output_buffer_write_offset := st'.1.output_buffer_write_offset } := by
  unfold decodeStep at h
  split_ifs at h with h1 h2 h3 h4
  all_goals
    first
    | exact Sum.noConfusion h
    | (injection h with h'; subst h'; rfl)

theorem iterN_shape {σ : Type} (D : Decoder σ) :
    ∀ n s0 st, iterN D n s0 = some st →
      st.1 = { s0.1 with
        input_buffer_read_offset := st.1.input_buffer_read_offset
        output_buffer_write_offset := st.1.output_buffer_write_offset } := by
  intro n
  induction n with
  | zero =>
    intro s0 st h0
    have hst : s0 = st := by
      have h0' : some s0 = some st := h0
      injection h0'
    subst hst
    rfl
  | succ k ih =>
    intro s0 st h0
    rw [iterN_eq] at h0
    cases hds : decodeStep D s0 with
    | inl x =>
      rw [iterW_succ_inl _ _ _ _ hds] at h0
      exact absurd h0 (by simp)
    | inr s1 =>
      rw [iterW_succ_inr _ _ _ _ hds] at h0
      have hshape := decodeStep_inr_shape D s0 s1 hds
      have hrec := ih s1 st h0
      exact hrec.trans (by rw [hshape])

/-- Claim C8: whenever the decoder reports a negative result, the inner
loop discards the in-flight packet and stops that context's processing for
the current pass only: the loop returns the record as of the last
write-back (no offset write-back for the failing iteration), the record
differs from the flag-cleared loaded record only in the read/write
offsets — in particular the candidate error fields `unk_dword_2` /
`unk_dword_3` and the buffer pointers are untouched, so no guest-visible
error is set — and the pass never writes the slot bookkeeping, leaving
`in_use` intact for the next kick. -/
theorem decode_error_handling {σ : Type} (D : Decoder σ) (fuel n : Nat)
    (wire : List Nat) (dec0 : σ) (st : XMA_CONTEXT_DATA × σ)
    (hrun : iterN D n (clearValid (loadRecord wire), dec0) = some st)
    (hin : ¬sub64 ((st.1.input_buffer_0_packet_count +
        st.1.input_buffer_1_packet_count) * 2048)
      (sub64 (st.1.input_buffer_read_offset / 8) 4) = 0)
    (hout : ¬sub64 (st.1.output_buffer_block_count * 256)
      (st.1.output_buffer_write_offset * 256) = 0)
    (herr : (D.decodePacket st.2 (st.1.output_buffer_write_offset * 256)
      (sub64 (st.1.output_buffer_block_count * 256)
        (st.1.output_buffer_write_offset * 256))).1 < 0)
    (hfuel : n < fuel) :
    runLoop D fuel (clearValid (loadRecord wire), dec0) =
      some (st.1, D.discardPacket
        (D.decodePacket st.2 (st.1.output_buffer_write_offset * 256)
          (sub64 (st.1.output_buffer_block_count * 256)
            (st.1.output_buffer_write_offset * 256))).2) ∧
    st.1 = { clearValid (loadRecord wire) with
      input_buffer_read_offset := st.1.input_buffer_read_offset
      output_buffer_write_offset := st.1.output_buffer_write_offset } ∧
    st.1.unk_dword_2 = (loadRecord wire).unk_dword_2 ∧
    st.1.unk_dword_3 = (loadRecord wire).unk_dword_3 ∧
    st.1.input_buffer_0_ptr = (loadRecord wire).input_buffer_0_ptr ∧
    (∀ slot w dec, (decoderPassContext D fuel slot w dec).1 = slot) := by
  have hstep := decodeStep_error D st hin hout herr
  have hshape := iterN_shape D n (clearValid (loadRecord wire), dec0) st hrun
  refine ⟨runLoop_of_iterN D n fuel _ st _ hrun hstep hfuel, hshape,
    ?_, ?_, ?_, ?_⟩
  · rw [hshape]
    rfl
  · rw [hshape]
    rfl
  · rw [hshape]
    rfl
  · intro slot w dec
    unfold decoderPassContext
    split <;> rfl

/-- Witness for C8: the always-erring decoder on a one-packet context at
iteration 0 of the pass. -/
theorem decode_error_handling_witness :
    (iterN errDecoder 0 (clearValid (loadRecord errWire), ()) =
        some (clearValid (loadRecord errWire), ()) ∧
      ¬sub64 (((clearValid (loadRecord errWire),
            ()).1.input_buffer_0_packet_count +
          (clearValid (loadRecord errWire),
            ()).1.input_buffer_1_packet_count) * 2048)
        (sub64 ((clearValid (loadRecord errWire),
          ()).1.input_buffer_read_offset / 8) 4) = 0 ∧
      ¬sub64 ((clearValid (loadRecord errWire),
          ()).1.output_buffer_block_count * 256)
        ((clearValid (loadRecord errWire),
          ()).1.output_buffer_write_offset * 256) = 0 ∧
      (errDecoder.decodePacket (clearValid (loadRecord errWire), ()).2
        ((clearValid (loadRecord errWire),
          ()).1.output_buffer_write_offset * 256)
        (sub64 ((clearValid (loadRecord errWire),
            ()).1.output_buffer_block_count * 256)
          ((clearValid (loadRecord errWire),
            ()).1.output_buffer_write_offset * 256))).1 < 0 ∧
      0 < 1) ∧
    runLoop errDecoder 1 (clearValid (loadRecord errWire), ()) =
      some ((clearValid (loadRecord errWire), ()).1,
        errDecoder.discardPacket
          (errDecoder.decodePacket (clearValid (loadRecord errWire), ()).2
            ((clearValid (loadRecord errWire),
              ()).1.output_buffer_write_offset * 256)
            (sub64 ((clearValid (loadRecord errWire),
                ()).1.output_buffer_block_count * 256)
              ((clearValid (loadRecord errWire),
                ()).1.output_buffer_write_offset * 256))).2) :=
  ⟨⟨rfl, by decide, by decide, by decide, by decide⟩,
   (decode_error_handling errDecoder 1 0 errWire ()
     (clearValid (loadRecord errWire), ()) rfl (by decide) (by decide)
     (by decide) (by decide)).1⟩

/-- Step lemma for the fixed-ratio decode loop: from the invariant, one
iteration of `decodeStep` either breaks out of the loop or preserves the
invariant and strictly decreases the remaining-work measure. -/
theorem fixedRatio_step (R cnt0 bc : Nat) (hRd : 256 ∣ R)
    (hcnt : cnt0 ≤ 4095) (hbc : bc ≤ 31) (st : XMA_CONTEXT_DATA × Nat)
    (hinv : decodeInv cnt0 bc st) :
    (∃ stop, decodeStep (fixedRatioDecoder R) st = Sum.inl stop) ∨
    (∃ st', decodeStep (fixedRatioDecoder R) st = Sum.inr st' ∧
      decodeInv cnt0 bc st' ∧
      decodeMeasure cnt0 bc st' < decodeMeasure cnt0 bc st) := by
  unfold decodeInv at hinv
  obtain ⟨hc0, hc1, hbc', ⟨p, hp, hro⟩, hwo, hdvd⟩ := hinv
  have hoff : sub64 (st.1.input_buffer_read_offset / 8) 4 = p * 2048 := by
    rw [hro]
    unfold sub64
    omega
  have hirem : sub64 ((st.1.input_buffer_0_packet_count +
      st.1.input_buffer_1_packet_count) * 2048)
      (sub64 (st.1.input_buffer_read_offset / 8) 4) = (cnt0 - p) * 2048 := by
    rw [hc0, hc1, hoff]
    unfold sub64
    omega
  have horem : sub64 (st.1.output_buffer_block_count * 256)
      (st.1.output_buffer_write_offset * 256) =
      (bc - st.1.output_buffer_write_offset) * 256 := by
    rw [hbc']
    unfold sub64
    omega
  by_cases hpe : p = cnt0
  · exact Or.inl ⟨st, decodeStep_input_done (fixedRatioDecoder R) st
      (by rw [hirem]; omega)⟩
  · have hplt : p < cnt0 := Nat.lt_of_le_of_ne hp hpe
    have hinz : ¬sub64 ((st.1.input_buffer_0_packet_count +
        st.1.input_buffer_1_packet_count) * 2048)
        (sub64 (st.1.input_buffer_read_offset / 8) 4) = 0 := by
      rw [hirem]
      omega
    by_cases hwoe : st.1.output_buffer_write_offset = bc
    · exact Or.inl ⟨st, decodeStep_output_full (fixedRatioDecoder R) st hinz
        (by rw [horem]; omega)⟩
    · have hwolt : st.1.output_buffer_write_offset < bc :=
        Nat.lt_of_le_of_ne hwo hwoe
      have honz : ¬sub64 (st.1.output_buffer_block_count * 256)
          (st.1.output_buffer_write_offset * 256) = 0 := by
        rw [horem]
        omega
      have hfst : ((fixedRatioDecoder R).decodePacket st.2
          (st.1.output_buffer_write_offset * 256)
          (sub64 (st.1.output_buffer_block_count * 256)
            (st.1.output_buffer_write_offset * 256))).1 =
          Int.ofNat (min st.2
            ((bc - st.1.output_buffer_write_offset) * 256)) := by
        rw [horem]
        rfl
      have hnneg : ¬((fixedRatioDecoder R).decodePacket st.2
          (st.1.output_buffer_write_offset * 256)
          (sub64 (st.1.output_buffer_block_count * 256)
            (st.1.output_buffer_write_offset * 256))).1 < 0 := by
        rw [hfst]
        exact not_lt.mpr (Int.ofNat_nonneg _)
      by_cases hB : st.2 = 0
      · have hzero : ((fixedRatioDecoder R).decodePacket st.2
            (st.1.output_buffer_write_offset * 256)
            (sub64 (st.1.output_buffer_block_count * 256)
              (st.1.output_buffer_write_offset * 256))).1 = 0 := by
          rw [hfst, hB]
          simp
        have htnz : ((fixedRatioDecoder R).decodePacket st.2
            (st.1.output_buffer_write_offset * 256)
            (sub64 (st.1.output_buffer_block_count * 256)
              (st.1.output_buffer_write_offset * 256))).1.toNat = 0 := by
          rw [hzero]
          rfl
        have hro2 : (writeBack st.1
            ((sub64 (st.1.input_buffer_read_offset / 8) 4 + 2048) % 2 ^ 64)
            ((st.1.output_buffer_write_offset * 256 +
              ((fixedRatioDecoder R).decodePacket st.2
                (st.1.output_buffer_write_offset * 256)
                (sub64 (st.1.output_buffer_block_count * 256)
                  (st.1.output_buffer_write_offset * 256))).1.toNat) %
              2 ^ 64)).input_buffer_read_offset =
            ((p + 1) * 2048 + 4) * 8 := by
          rw [(writeBack_fields st.1 _ _).1, hoff]
          omega
        have hwo2 : (writeBack st.1
            ((sub64 (st.1.input_buffer_read_offset / 8) 4 + 2048) % 2 ^ 64)
            ((st.1.output_buffer_write_offset * 256 +
              ((fixedRatioDecoder R).decodePacket st.2
                (st.1.output_buffer_write_offset * 256)
                (sub64 (st.1.output_buffer_block_count * 256)
                  (st.1.output_buffer_write_offset * 256))).1.toNat) %
              2 ^ 64)).output_buffer_write_offset =
            st.1.output_buffer_write_offset := by
          rw [(writeBack_fields st.1 _ _).2.1, htnz]
          omega
        have hmlt : (cnt0 - sub64 ((writeBack st.1
            ((sub64 (st.1.input_buffer_read_offset / 8) 4 + 2048) % 2 ^ 64)
            ((st.1.output_buffer_write_offset * 256 +
              ((fixedRatioDecoder R).decodePacket st.2
                (st.1.output_buffer_write_offset * 256)
                (sub64 (st.1.output_buffer_block_count * 256)
                  (st.1.output_buffer_write_offset * 256))).1.toNat) %
              2 ^ 64)).input_buffer_read_offset / 8) 4 / 2048) +
            (bc - (writeBack st.1
            ((sub64 (st.1.input_buffer_read_offset / 8) 4 + 2048) % 2 ^ 64)
            ((st.1.output_buffer_write_offset * 256 +
              ((fixedRatioDecoder R).decodePacket st.2
                (st.1.output_buffer_write_offset * 256)
                (sub64 (st.1.output_buffer_block_count * 256)
                  (st.1.output_buffer_write_offset * 256))).1.toNat) %
              2 ^ 64)).output_buffer_write_offset) <
            (cnt0 - sub64 (st.1.input_buffer_read_offset / 8) 4 / 2048) +
            (bc - st.1.output_buffer_write_offset) := by
          rw [hro2, hwo2, hoff]
          unfold sub64
          omega
        refine Or.inr ⟨_, decodeStep_zero (fixedRatioDecoder R) st hinz honz
          hnneg hzero, ?_, ?_⟩
        · unfold decodeInv
          exact ⟨hc0, hc1, hbc', ⟨p + 1, by omega, hro2⟩,
            hwo2.trans_le hwo, hRd⟩
        · exact hmlt
      · have hBpos : 0 < st.2 := Nat.pos_of_ne_zero hB
        have hB256 : 256 ≤ st.2 := by omega
        have hne0 : ¬((fixedRatioDecoder R).decodePacket st.2
            (st.1.output_buffer_write_offset * 256)
            (sub64 (st.1.output_buffer_block_count * 256)
              (st.1.output_buffer_write_offset * 256))).1 = 0 := by
          rw [hfst]
          intro hcontra
          have hmin0 : min st.2
              ((bc - st.1.output_buffer_write_offset) * 256) = 0 :=
            Int.ofNat.inj hcontra
          omega
        have htnp : ((fixedRatioDecoder R).decodePacket st.2
            (st.1.output_buffer_write_offset * 256)
            (sub64 (st.1.output_buffer_block_count * 256)
              (st.1.output_buffer_write_offset * 256))).1.toNat =
            min st.2 ((bc - st.1.output_buffer_write_offset) * 256) := by
          rw [hfst]
          rfl
        have hro2 : (writeBack st.1
            (sub64 (st.1.input_buffer_read_offset / 8) 4)
            ((st.1.output_buffer_write_offset * 256 +
              ((fixedRatioDecoder R).decodePacket st.2
                (st.1.output_buffer_write_offset * 256)
                (sub64 (st.1.output_buffer_block_count * 256)
                  (st.1.output_buffer_write_offset * 256))).1.toNat) %
              2 ^ 64)).input_buffer_read_offset = (p * 2048 + 4) * 8 := by
          rw [(writeBack_fields st.1 _ _).1, hoff]
          omega
        have hwo2 : (writeBack st.1
            (sub64 (st.1.input_buffer_read_offset / 8) 4)
            ((st.1.output_buffer_write_offset * 256 +
              ((fixedRatioDecoder R).decodePacket st.2
                (st.1.output_buffer_write_offset * 256)
                (sub64 (st.1.output_buffer_block_count * 256)
                  (st.1.output_buffer_write_offset * 256))).1.toNat) %
              2 ^ 64)).output_buffer_write_offset =
            st.1.output_buffer_write_offset +
              min st.2 ((bc - st.1.output_buffer_write_offset) * 256) /
                256 := by
          rw [(writeBack_fields st.1 _ _).2.1, htnp]
          omega
        have hwob : st.1.output_buffer_write_offset +
            min st.2 ((bc - st.1.output_buffer_write_offset) * 256) / 256 ≤
            bc := by
          omega
        have hdvd2 : 256 ∣ st.2 - min st.2
            (sub64 (st.1.output_buffer_block_count * 256)
              (st.1.output_buffer_write_offset * 256)) := by
          rw [horem]
          omega
        have hmlt : (cnt0 - sub64 ((writeBack st.1
            (sub64 (st.1.input_buffer_read_offset / 8) 4)
            ((st.1.output_buffer_write_offset * 256 +
              ((fixedRatioDecoder R).decodePacket st.2
                (st.1.output_buffer_write_offset * 256)
                (sub64 (st.1.output_buffer_block_count * 256)
                  (st.1.output_buffer_write_offset * 256))).1.toNat) %
              2 ^ 64)).input_buffer_read_offset / 8) 4 / 2048) +
            (bc - (writeBack st.1
            (sub64 (st.1.input_buffer_read_offset / 8) 4)
            ((st.1.output_buffer_write_offset * 256 +
              ((fixedRatioDecoder R).decodePacket st.2
                (st.1.output_buffer_write_offset * 256)
                (sub64 (st.1.output_buffer_block_count * 256)
                  (st.1.output_buffer_write_offset * 256))).1.toNat) %
              2 ^ 64)).output_buffer_write_offset) <
            (cnt0 - sub64 (st.1.input_buffer_read_offset / 8) 4 / 2048) +
            (bc - st.1.output_buffer_write_offset) := by
          rw [hro2, hwo2, hoff]
          unfold sub64
          omega
        refine Or.inr ⟨_, decodeStep_pos (fixedRatioDecoder R) st hinz honz
          hnneg hne0, ?_, ?_⟩
        · unfold decodeInv
          exact ⟨hc0, hc1, hbc', ⟨p, hp, hro2⟩, hwo2.trans_le hwob, hdvd2⟩
        · exact hmlt

/-- Fuel bound for the fixed-ratio decode loop: once the measure is at
most `m`, fuel `m + 1` suffices for the loop to break. -/
theorem fixedRatio_terminates (R cnt0 bc : Nat) (hRd : 256 ∣ R)
    (hcnt : cnt0 ≤ 4095) (hbc : bc ≤ 31) :
    ∀ m st, decodeInv cnt0 bc st → decodeMeasure cnt0 bc st ≤ m →
      (runLoop (fixedRatioDecoder R) (m + 1) st).isSome = true := by
  intro m
  induction m with
  | zero =>
    intro st hinv hm
    rcases fixedRatio_step R cnt0 bc hRd hcnt hbc st hinv with
      ⟨stop, hstep⟩ | ⟨st', hstep, hinv', hlt⟩
    · rw [runLoop_eq, loopRun_succ_inl (decodeStep (fixedRatioDecoder R))
        0 st stop hstep]
      rfl
    · exact absurd (Nat.lt_of_lt_of_le hlt hm) (Nat.not_lt_zero _)
  | succ k ih =>
    intro st hinv hm
    rcases fixedRatio_step R cnt0 bc hRd hcnt hbc st hinv with
      ⟨stop, hstep⟩ | ⟨st', hstep, hinv', hlt⟩
    · rw [runLoop_eq, loopRun_succ_inl (decodeStep (fixedRatioDecoder R))
        (k + 1) st stop hstep]
      rfl
    · rw [runLoop_eq, loopRun_succ_inr (decodeStep (fixedRatioDecoder R))
        (k + 1) st st' hstep, ← runLoop_eq]
      exact ih st' hinv' (by omega)

/-- Invariant preservation along the iteration walker of the fixed-ratio
decode loop. -/
theorem fixedRatio_iter_inv (R cnt0 bc : Nat) (hRd : 256 ∣ R)
    (hcnt : cnt0 ≤ 4095) (hbc : bc ≤ 31) :
    ∀ n st0 st, decodeInv cnt0 bc st0 →
      iterN (fixedRatioDecoder R) n st0 = some st →
      decodeInv cnt0 bc st := by
  intro n
  induction n with
  | zero =>
    intro st0 st h0 hiter
    have hst : st0 = st := by
      have hs : some st0 = some st := hiter
      injection hs
    subst hst
    exact h0
  | succ k ih =>
    intro st0 st h0 hiter
    rw [iterN_eq] at hiter
    rcases fixedRatio_step R cnt0 bc hRd hcnt hbc st0 h0 with
      ⟨stop, hstep⟩ | ⟨st1, hstep, hinv1, hlt⟩
    · rw [iterW_succ_inl (decodeStep (fixedRatioDecoder R)) k st0 stop hstep]
        at hiter
      exact absurd hiter (by simp)
    · rw [iterW_succ_inr (decodeStep (fixedRatioDecoder R)) k st0 st1 hstep]
        at hiter
      exact ih st1 st hinv1 (by rw [iterN_eq]; exact hiter)

/-- Counterexample to the claimed iteration bound: with two 2048-byte
input packets (S = 4096 input bytes) and a fresh 31-block output buffer
(O = 7936 output bytes), ceil(min(S, O) / 2048) = 2, yet with a
fixed-ratio decoder emitting 2048 bytes per packet the inner loop is
still running after 2 iterations: the first iteration merely stages a
packet (DecodePacket returns 0 output bytes for it), so the loop needs 4
iterations (stage, emit, stage, end-of-input break) to terminate. -/
theorem decode_loop_ceil_bound_fails :
    (min (2 * 2048) (31 * 256) + 2048 - 1) / 2048 = 2 ∧
    runLoop (fixedRatioDecoder 2048) 2 (twoPacketRecord, 0) = none ∧
    runLoop (fixedRatioDecoder 2048) 4 (twoPacketRecord, 0) ≠ none :=
  ⟨by decide, by decide, by decide⟩

/-- Claim C2 (amended): for the inner decode loop (audio_system.cc lines
247-318) run with an error-free fixed-ratio decoder whose per-packet
output is a whole number of 256-byte blocks, on a record with
`cnt0 ≤ 4095` input packets (S = cnt0 * 2048 input bytes), `bc ≤ 31`
granted output blocks (O = bc * 256 output bytes), a fresh write offset
and the read offset at the standard 32-bit post-header position, the
loop terminates within S / 2048 + O / 256 + 1 iterations — the claimed
ceil(min(S, O) / 2048) bound is too small because packet-staging
iterations produce no output (see the counterexample) — and every
`DecodePacket` call is bounded by the remaining output space: the write
offset plus the bytes produced never exceeds O, so no byte is written at
or past output offset O. -/
theorem decode_loop_bound (R cnt0 bc : Nat) (d0 : XMA_CONTEXT_DATA)
    (hRd : 256 ∣ R) (hcnt : cnt0 ≤ 4095) (hbc : bc ≤ 31)
    (h1 : d0.input_buffer_0_packet_count = cnt0)
    (h2 : d0.input_buffer_1_packet_count = 0)
    (h3 : d0.output_buffer_block_count = bc)
    (h4 : d0.output_buffer_write_offset = 0)
    (h5 : d0.input_buffer_read_offset = 32) :
    (runLoop (fixedRatioDecoder R) (cnt0 + bc + 1) (d0, 0)).isSome = true ∧
    ∀ n st, iterN (fixedRatioDecoder R) n (d0, 0) = some st →
      st.1.output_buffer_write_offset * 256 +
        ((fixedRatioDecoder R).decodePacket st.2
          (st.1.output_buffer_write_offset * 256)
          (sub64 (st.1.output_buffer_block_count * 256)
            (st.1.output_buffer_write_offset * 256))).1.toNat ≤
        bc * 256 := by
  have hinv0 : decodeInv cnt0 bc (d0, 0) := by
    unfold decodeInv
    refine ⟨h1, h2, h3, ⟨0, Nat.zero_le cnt0, ?_⟩, ?_, dvd_zero 256⟩
    · show d0.input_buffer_read_offset = (0 * 2048 + 4) * 8
      omega
    · show d0.output_buffer_write_offset ≤ bc
      omega
  constructor
  · have hm : decodeMeasure cnt0 bc (d0, 0) ≤ cnt0 + bc := by
      show (cnt0 - sub64 (d0.input_buffer_read_offset / 8) 4 / 2048) +
        (bc - d0.output_buffer_write_offset) ≤ cnt0 + bc
      rw [h4, h5]
      unfold sub64
      omega
    exact fixedRatio_terminates R cnt0 bc hRd hcnt hbc (cnt0 + bc)
      (d0, 0) hinv0 hm
  · intro n st hiter
    have hinv := fixedRatio_iter_inv R cnt0 bc hRd hcnt hbc n (d0, 0) st
      hinv0 hiter
    unfold decodeInv at hinv
    obtain ⟨hc0, hc1, hbc', hrop, hwo, hdvd⟩ := hinv
    have horem : sub64 (st.1.output_buffer_block_count * 256)
        (st.1.output_buffer_write_offset * 256) =
        (bc - st.1.output_buffer_write_offset) * 256 := by
      rw [hbc']
      unfold sub64
      omega
    have htn : ((fixedRatioDecoder R).decodePacket st.2
        (st.1.output_buffer_write_offset * 256)
        (sub64 (st.1.output_buffer_block_count * 256)
          (st.1.output_buffer_write_offset * 256))).1.toNat =
        min st.2 ((bc - st.1.output_buffer_write_offset) * 256) := by
      rw [horem]
      rfl
    rw [htn]
    omega

theorem decode_loop_bound_witness :
    ((256 : Nat) ∣ 2048 ∧ 2 ≤ 4095 ∧ 31 ≤ 31 ∧
      twoPacketRecord.input_buffer_0_packet_count = 2 ∧
      twoPacketRecord.input_buffer_1_packet_count = 0 ∧
      twoPacketRecord.output_buffer_block_count = 31 ∧
      twoPacketRecord.output_buffer_write_offset = 0 ∧
      twoPacketRecord.input_buffer_read_offset = 32) ∧
    (runLoop (fixedRatioDecoder 2048) (2 + 31 + 1)
      (twoPacketRecord, 0)).isSome = true :=
  ⟨⟨⟨8, rfl⟩, by decide, by decide, rfl, rfl, rfl, rfl, rfl⟩,
   (decode_loop_bound 2048 2 31 twoPacketRecord ⟨8, rfl⟩ (by decide)
     (by decide) rfl rfl rfl rfl rfl).1⟩

end XeniaApu
